import Mathlib

/-!
Verification development for the wxawebcat fetch-and-classify pipeline.

The repository contains two variants of the classifier:
* a file-based classifier (wxawebcat_fetcher_enhanced.py), and
* a database classifier (scripts/wxawebcat_classifier_db.py),
plus a database web fetcher (scripts/wxawebcat_web_fetcher_db.py).

Definitions below are shallow embeddings of the Python functions; each
definition carries a comment naming the Python source it embeds.
Text is modelled as `List Char` / `String` (the inputs of interest are
ASCII, and Python's `str.lower`/`str.upper` agree with the ASCII case
maps there); rationals stand for Python floats (all confidences are
decimal literals, exactly representable); `Option` models `None`.
-/

namespace WebCat

/-! ## Python text primitives -/

/-- ASCII lower-casing of one character, as Python str.lower acts on ASCII. -/
def pyLowerC (c : Char) : Char :=
  if 'A' ≤ c ∧ c ≤ 'Z' then Char.ofNat (c.toNat + 32) else c

/-- ASCII upper-casing of one character, as Python str.upper acts on ASCII. -/
def pyUpperC (c : Char) : Char :=
  if 'a' ≤ c ∧ c ≤ 'z' then Char.ofNat (c.toNat - 32) else c

/-- Python whitespace (the class matched by the regex \s on ASCII text):
space, tab, newline, vertical tab, form feed, carriage return. -/
def pySpace (c : Char) : Bool :=
  c = ' ' ∨ c = '\t' ∨ c = '\n' ∨ c = Char.ofNat 11 ∨ c = Char.ofNat 12 ∨ c = '\r'

/-- One pass of the regex substitution re.sub(r"\s+", " ", s): every maximal
run of whitespace becomes a single space. -/
def collapseWs : List Char → List Char
  | [] => []
  | [c] => if pySpace c then [' '] else [c]
  | c :: d :: rest =>
    if pySpace c ∧ pySpace d then collapseWs (d :: rest)
    else (if pySpace c then ' ' else c) :: collapseWs (d :: rest)

/-- Python str.lstrip on a character list. -/
def lstripL (l : List Char) : List Char := l.dropWhile pySpace

/-- Python str.rstrip on a character list. -/
def rstripL (l : List Char) : List Char := ((l.reverse).dropWhile pySpace).reverse

/-- Python str.strip on a character list. -/
def stripL (l : List Char) : List Char := rstripL (lstripL l)

/-- Python str.strip on a string. -/
def stripS (s : String) : String := ⟨stripL s.data⟩

/-- Python str.lower on a string (ASCII). -/
def pyLowerS (s : String) : String := ⟨s.data.map pyLowerC⟩

/-- Python str.upper on a string (ASCII). -/
def pyUpperS (s : String) : String := ⟨s.data.map pyUpperC⟩

/-- Python substring membership needle in hay on character lists. -/
def subList (needle : List Char) : List Char → Bool
  | [] => needle.isEmpty
  | c :: t => needle.isPrefixOf (c :: t) || subList needle t

/-- Python needle in hay on strings. -/
def strContains (hay needle : String) : Bool := subList needle.data hay.data

/-- Python str.endswith on character lists. -/
def suffixL (suf l : List Char) : Bool := suf.reverse.isPrefixOf l.reverse

/-- Python str.endswith on strings. -/
def strEndsWith (s suf : String) : Bool := suffixL suf.data s.data

/-- Python str.startswith on strings. -/
def strStarts (s pre : String) : Bool := pre.data.isPrefixOf s.data

/-- Python s.rstrip of the dot character, used by extract_tld. -/
def rstripDots (l : List Char) : List Char :=
  ((l.reverse).dropWhile (fun c => c = '.')).reverse

/-- The last dot-separated label of a name: Python s.split(a dot)[-1],
realised as the longest dot-free suffix. -/
def lastLabel (l : List Char) : List Char :=
  (l.reverse.takeWhile (fun c => c != '.')).reverse

/-- norm_text (wxawebcat_fetcher_enhanced.py:279-282): empty for
None/empty input, otherwise collapse whitespace runs, strip, lower. -/
def normTextL (l : List Char) : List Char :=
  ((stripL (collapseWs l)).map pyLowerC)

/-- norm_text lifted to the optional string fields of a fetch document. -/
def normText : Option String → String
  | none => ""
  | some s => if s = "" then "" else ⟨normTextL s.data⟩

/-- Python a or b on optional strings: the first operand unless it is
None or empty. -/
def pyOrStr (a b : Option String) : Option String :=
  match a with
  | some s => if s = "" then b else some s
  | none => b

/-- Python str(x) rendering of an optional value, as an f-string renders
it: None prints as the four-letter word None. -/
def optStr (o : Option String) : String :=
  match o with
  | some s => s
  | none => "None"

/-- Membership of an optional status code in a set of codes; Python's
None in someSet is False. -/
def statusMem (s : Option Int) (codes : List Int) : Bool :=
  match s with
  | some v => codes.contains v
  | none => false

/-- F-string rendering of the optional status code. -/
def statusStr (s : Option Int) : String :=
  match s with
  | some v => toString v
  | none => "None"

/-! ## TLD tables and classification

From wxawebcat_fetcher_enhanced.py:98-171 (file-based variant) and
scripts/wxawebcat_classifier_db.py:75-127 (database variant).
Confidences are the Python float literals, as rationals. -/

/-- TLD_CATEGORY_MAP (wxawebcat_fetcher_enhanced.py:98-134), in source
order: suffix, category, confidence, description. -/
def tldCategoryMap : List (String × String × ℚ × String) :=
  [ (".gov", "Government", mkRat 99 100, "Government TLD"),
    (".gov.uk", "Government", mkRat 99 100, "Government TLD"),
    (".gov.au", "Government", mkRat 99 100, "Government TLD"),
    (".gov.ca", "Government", mkRat 99 100, "Government TLD"),
    (".mil", "Government", mkRat 99 100, "Military TLD"),
    (".edu", "Education", mkRat 98 100, "Educational institution TLD"),
    (".ac.uk", "Education", mkRat 98 100, "Academic TLD"),
    (".edu.au", "Education", mkRat 98 100, "Educational TLD"),
    (".edu.cn", "Education", mkRat 98 100, "Educational TLD"),
    (".xxx", "Adult", mkRat 99 100, "Adult content TLD"),
    (".adult", "Adult", mkRat 98 100, "Adult content TLD"),
    (".porn", "Adult", mkRat 99 100, "Adult content TLD"),
    (".sex", "Adult", mkRat 98 100, "Adult content TLD"),
    (".crypto", "Technology", mkRat 85 100, "Cryptocurrency TLD"),
    (".nft", "Technology", mkRat 85 100, "NFT/Blockchain TLD"),
    (".blockchain", "Technology", mkRat 90 100, "Blockchain TLD"),
    (".museum", "Arts_Entertainment", mkRat 85 100, "Museum TLD"),
    (".church", "Religion", mkRat 85 100, "Religious organization TLD"),
    (".bank", "Finance", mkRat 90 100, "Banking TLD"),
    (".insurance", "Finance", mkRat 85 100, "Insurance TLD"),
    (".localhost", "Development", mkRat 99 100, "Localhost TLD"),
    (".local", "Development", mkRat 95 100, "Local development TLD"),
    (".test", "Development", mkRat 99 100, "Test TLD"),
    (".example", "Development", mkRat 99 100, "Example TLD") ]

/-- First-match lookup of a key in an association list of TLD entries,
as Python dict lookup on the (duplicate-free) TLD map. -/
def tldLookup (m : List (String × String × ℚ × String)) (k : String) :
    Option (String × ℚ × String) :=
  match m with
  | [] => none
  | (k0, cat, conf, desc) :: rest =>
    if k0 = k then some (cat, conf, desc) else tldLookup rest k

/-- The Python expression sorted(TLD_CATEGORY_MAP.keys(), key=len,
reverse=True) evaluated on the map above: the keys in stable descending
length order.  (Python's sort is stable, so equal-length keys keep the
insertion order of the map.) -/
def sortedTldKeys : List String :=
  [ ".blockchain",
    ".insurance", ".localhost",
    ".example",
    ".gov.uk", ".gov.au", ".gov.ca", ".edu.au", ".edu.cn", ".crypto",
    ".museum", ".church",
    ".ac.uk", ".adult", ".local",
    ".porn", ".bank", ".test",
    ".gov", ".mil", ".edu", ".xxx", ".sex", ".nft" ]

/-- First key in the list whose reversed characters are a prefix of the
reversed name: the loop for tld in sorted(...): if fqdn_lower.endswith(tld). -/
def firstSuffixKey : List String → List Char → Option String
  | [], _ => none
  | k :: ks, f => if suffixL k.data f then some k else firstSuffixKey ks f

/-- extract_tld (wxawebcat_fetcher_enhanced.py:137-159): lower-case and
strip trailing dots, try every map key longest-first as a suffix, then
fall back to the final dot-separated label. -/
def extractTld (fqdn : String) : Option String :=
  if fqdn = "" then none
  else
    let f := rstripDots (fqdn.data.map pyLowerC)
    match firstSuffixKey sortedTldKeys f with
    | some t => some t
    | none =>
      if f.contains '.' then
        let t : String := ⟨'.' :: lastLabel f⟩
        match tldLookup tldCategoryMap t with
        | some _ => some t
        | none => none
      else none

/-- classify_by_tld (wxawebcat_fetcher_enhanced.py:162-171). -/
def classifyByTld (fqdn : String) : Option (String × ℚ × String) :=
  match extractTld fqdn with
  | some t =>
    match tldLookup tldCategoryMap t with
    | some (cat, conf, desc) =>
      some (cat, conf, "rule: TLD " ++ t ++ " → " ++ desc)
    | none => none
  | none => none

/-- TLD_CATEGORY_MAP of the database classifier
(scripts/wxawebcat_classifier_db.py:75-100); the confidences and
descriptions differ from the file-based variant in places. -/
def dbTldCategoryMap : List (String × String × ℚ × String) :=
  [ (".gov", "Government", mkRat 99 100, "Government TLD"),
    (".gov.uk", "Government", mkRat 99 100, "UK Government TLD"),
    (".gov.au", "Government", mkRat 99 100, "Australian Government TLD"),
    (".gov.ca", "Government", mkRat 99 100, "Canadian Government TLD"),
    (".mil", "Government", mkRat 99 100, "Military TLD"),
    (".edu", "Education", mkRat 98 100, "Educational institution TLD"),
    (".ac.uk", "Education", mkRat 98 100, "UK Academic TLD"),
    (".edu.au", "Education", mkRat 98 100, "Australian Education TLD"),
    (".edu.cn", "Education", mkRat 98 100, "Chinese Education TLD"),
    (".xxx", "Adult", mkRat 99 100, "Adult content TLD"),
    (".adult", "Adult", mkRat 99 100, "Adult content TLD"),
    (".porn", "Adult", mkRat 98 100, "Adult content TLD"),
    (".sex", "Adult", mkRat 98 100, "Adult content TLD"),
    (".bank", "Finance", mkRat 90 100, "Banking TLD"),
    (".insurance", "Finance", mkRat 90 100, "Insurance TLD"),
    (".crypto", "Technology", mkRat 85 100, "Cryptocurrency TLD"),
    (".nft", "Technology", mkRat 85 100, "NFT TLD"),
    (".blockchain", "Technology", mkRat 85 100, "Blockchain TLD"),
    (".museum", "Arts_Entertainment", mkRat 90 100, "Museum TLD"),
    (".church", "Religion", mkRat 90 100, "Religious organization TLD"),
    (".test", "Development", mkRat 99 100, "Testing TLD"),
    (".localhost", "Development", mkRat 99 100, "Localhost TLD"),
    (".local", "Development", mkRat 99 100, "Local network TLD"),
    (".example", "Development", mkRat 99 100, "Example TLD") ]

/-- extract_tld of the database classifier
(scripts/wxawebcat_classifier_db.py:103-118): a hard-coded multi-part
suffix list, then the final label when the name has at least two labels. -/
def dbExtractTld (fqdn : String) : Option String :=
  if fqdn = "" then none
  else
    let f := fqdn.data.map pyLowerC
    match firstSuffixKey
        [".gov.uk", ".gov.au", ".gov.ca", ".ac.uk", ".edu.au", ".edu.cn"] f with
    | some t => some t
    | none =>
      if f.contains '.' then some ⟨'.' :: lastLabel f⟩ else none

/-- classify_by_tld of the database classifier
(scripts/wxawebcat_classifier_db.py:121-127). -/
def dbClassifyByTld (fqdn : String) : Option (String × ℚ × String) :=
  match dbExtractTld fqdn with
  | some t =>
    match tldLookup dbTldCategoryMap t with
    | some (cat, conf, desc) =>
      some (cat, conf, "rule: TLD " ++ t ++ " → " ++ desc)
    | none => none
  | none => none

/-! ## Fetch documents

The JSON/dict-shaped fetch record consumed by the rule engine and the
fingerprint builder.  Optional fields model keys that may be absent or
None in the Python dict. -/

/-- The dns sub-dict of a fetch record. -/
structure DnsRecord where
  rcode : Option String
  a : List String
  aaaa : List String
  cname : List String
  mx : List String
deriving DecidableEq

/-- The http sub-dict of a fetch record.  headersContentType models
http.headers content-type, the fallback used when the content_type key
is absent. -/
structure HttpRecord where
  status : Option Int
  final_url : Option String
  content_type : Option String
  headersContentType : Option String
  title : Option String
  body_snippet : Option String
  metaDescription : Option String
  blocked : Bool
deriving DecidableEq

/-- A complete fetch document: the JSON object read from a fetch file or
the row dict handed to the database classifier. -/
structure FetchDoc where
  fqdn : Option String
  domain : Option String
  dns : DnsRecord
  http : HttpRecord
deriving DecidableEq

/-- doc.get fqdn or doc.get domain or the empty string
(wxawebcat_fetcher_enhanced.py:324). -/
def effFqdn (doc : FetchDoc) : String :=
  match pyOrStr doc.fqdn doc.domain with
  | some s => s
  | none => ""

/-! ## Rule engine constants (wxawebcat_fetcher_enhanced.py:288-307) -/

def parkedPatterns : List String :=
  [ "domain for sale", "buy this domain", "this domain is for sale",
    "sedo", "afternic", "dan.com", "bodis", "parkingcrew",
    "is parked", "domain parked", "parked domain" ]

def blockPatterns : List String :=
  [ "access denied", "request blocked", "unusual traffic", "verify you are human",
    "captcha", "challenge", "checking your browser", "ddos protection",
    "attention required", "cloudflare", "akamai", "imperva", "incapsula" ]

def notFoundPatterns : List String :=
  [ "not found", "404", "page not found", "doesn't exist", "does not exist" ]

def unreachableStatusCodes : List Int := [0, 408, 520, 521, 522, 523, 524]
def blockedStatusCodes : List Int := [403, 429]
def notFoundStatusCodes : List Int := [404, 410]

/-- Python any(p in combo for p in pats). -/
def anyPat (pats : List String) (combo : String) : Bool :=
  pats.any (fun p => strContains combo p)

/-- The rcode variable of rule_preclass: (dns.get rcode or empty).upper()
(wxawebcat_fetcher_enhanced.py:333). -/
def docRcodeU (doc : FetchDoc) : String :=
  pyUpperS ((doc.dns.rcode).getD "")

/-- The content_type variable of rule_preclass: norm_text of the
content_type key, falling back to the content-type header
(wxawebcat_fetcher_enhanced.py:341). -/
def docContentType (doc : FetchDoc) : String :=
  normText (pyOrStr doc.http.content_type doc.http.headersContentType)

/-- rule_preclass (wxawebcat_fetcher_enhanced.py:310-383), the file-based
rule engine: TLD lookup, DNS unreachable, HTTP unreachable, blocked,
not-found, parked, non-HTML content-type, first match wins. -/
def rulePreclass (doc : FetchDoc) (enableTldRules : Bool) :
    Option (String × ℚ × String) :=
  let fqdn := effFqdn doc
  match (if enableTldRules then classifyByTld fqdn else none) with
  | some r => some r
  | none =>
    let rcode := docRcodeU doc
    let status := doc.http.status
    let blocked := doc.http.blocked
    let contentType := docContentType doc
    let title := normText doc.http.title
    let snippet := normText doc.http.body_snippet
    let combo := title ++ " " ++ snippet
    if rcode = "NXDOMAIN" ∨ rcode = "SERVFAIL" then
      some ("Unreachable", mkRat 99 100, "rule: dns rcode=" ++ rcode)
    else if doc.dns.a = [] ∧ doc.dns.aaaa = [] ∧ doc.dns.cname = [] then
      some ("Unreachable", mkRat 95 100, "rule: no A/AAAA/CNAME")
    else if statusMem status unreachableStatusCodes then
      some ("Unreachable", mkRat 95 100, "rule: http status=" ++ statusStr status)
    else if blocked then
      some ("Blocked", mkRat 98 100, "rule: fetcher blocked=true")
    else if statusMem status blockedStatusCodes ∧ anyPat blockPatterns combo then
      some ("Blocked", mkRat 95 100,
        "rule: http " ++ statusStr status ++ " + block fingerprint")
    else if statusMem status notFoundStatusCodes ∧ anyPat notFoundPatterns combo then
      some ("Unreachable", mkRat 90 100,
        "rule: http " ++ statusStr status ++ " + notfound fingerprint")
    else if anyPat parkedPatterns combo then
      some ("Parked", mkRat 95 100, "rule: parked/sale fingerprint")
    else if contentType ≠ "" ∧ strStarts contentType "image/" then
      some ("NonWebContent", mkRat 90 100, "rule: content-type=" ++ contentType)
    else if contentType ≠ "" ∧ strStarts contentType "application/pdf" then
      some ("NonWebContent", mkRat 90 100, "rule: content-type=application/pdf")
    else if contentType ≠ "" ∧
        (strStarts contentType "application/zip" ∨
         strStarts contentType "application/octet-stream") then
      some ("NonWebContent", mkRat 85 100, "rule: content-type=" ++ contentType)
    else none

/-! ### The seven checks of the file-based engine, taken apart

Each definition is the corresponding return statement block of
rule_preclass; the ordered first-match composition of the list is proved
equal to rule_preclass below. -/

def tldCheck (doc : FetchDoc) : Option (String × ℚ × String) :=
  classifyByTld (effFqdn doc)

def dnsUnreachableCheck (doc : FetchDoc) : Option (String × ℚ × String) :=
  let rcode := docRcodeU doc
  if rcode = "NXDOMAIN" ∨ rcode = "SERVFAIL" then
    some ("Unreachable", mkRat 99 100, "rule: dns rcode=" ++ rcode)
  else if doc.dns.a = [] ∧ doc.dns.aaaa = [] ∧ doc.dns.cname = [] then
    some ("Unreachable", mkRat 95 100, "rule: no A/AAAA/CNAME")
  else none

def httpUnreachableCheck (doc : FetchDoc) : Option (String × ℚ × String) :=
  if statusMem doc.http.status unreachableStatusCodes then
    some ("Unreachable", mkRat 95 100,
      "rule: http status=" ++ statusStr doc.http.status)
  else none

def blockedCheck (doc : FetchDoc) : Option (String × ℚ × String) :=
  if doc.http.blocked then
    some ("Blocked", mkRat 98 100, "rule: fetcher blocked=true")
  else if statusMem doc.http.status blockedStatusCodes ∧
      anyPat blockPatterns (normText doc.http.title ++ " " ++ normText doc.http.body_snippet) then
    some ("Blocked", mkRat 95 100,
      "rule: http " ++ statusStr doc.http.status ++ " + block fingerprint")
  else none

def notFoundCheck (doc : FetchDoc) : Option (String × ℚ × String) :=
  if statusMem doc.http.status notFoundStatusCodes ∧
      anyPat notFoundPatterns (normText doc.http.title ++ " " ++ normText doc.http.body_snippet) then
    some ("Unreachable", mkRat 90 100,
      "rule: http " ++ statusStr doc.http.status ++ " + notfound fingerprint")
  else none

def parkedCheck (doc : FetchDoc) : Option (String × ℚ × String) :=
  if anyPat parkedPatterns
      (normText doc.http.title ++ " " ++ normText doc.http.body_snippet) then
    some ("Parked", mkRat 95 100, "rule: parked/sale fingerprint")
  else none

def contentTypeCheck (doc : FetchDoc) : Option (String × ℚ × String) :=
  let contentType := docContentType doc
  if contentType ≠ "" ∧ strStarts contentType "image/" then
    some ("NonWebContent", mkRat 90 100, "rule: content-type=" ++ contentType)
  else if contentType ≠ "" ∧ strStarts contentType "application/pdf" then
    some ("NonWebContent", mkRat 90 100, "rule: content-type=application/pdf")
  else if contentType ≠ "" ∧
      (strStarts contentType "application/zip" ∨
       strStarts contentType "application/octet-stream") then
    some ("NonWebContent", mkRat 85 100, "rule: content-type=" ++ contentType)
  else none

/-- Ordered first-match evaluation of a list of checks: the first check
returning a result short-circuits all later ones. -/
def runChecks (cs : List (FetchDoc → Option (String × ℚ × String)))
    (doc : FetchDoc) : Option (String × ℚ × String) :=
  match cs with
  | [] => none
  | c :: rest =>
    match c doc with
    | some r => some r
    | none => runChecks rest doc

/-- The check order of the file-based engine under a TLD-rules flag. -/
def enhChecks (enableTldRules : Bool) :
    List (FetchDoc → Option (String × ℚ × String)) :=
  (if enableTldRules then [tldCheck] else []) ++
  [dnsUnreachableCheck, httpUnreachableCheck, blockedCheck,
   notFoundCheck, parkedCheck, contentTypeCheck]

/-! ### The database rule engine -/

/-- rule_preclass of the database classifier
(scripts/wxawebcat_classifier_db.py:135-167): TLD lookup, then any
non-NOERROR rcode, HTTP unreachable, blocked (status or flag, with no
keyword requirement), not-found (no keyword requirement), parked.
There is no non-HTML content-type rule. -/
def dbRulePreclass (doc : FetchDoc) (enableTldRules : Bool) :
    Option (String × ℚ × String) :=
  let fqdn := (doc.fqdn).getD ""
  match (if enableTldRules then dbClassifyByTld fqdn else none) with
  | some r => some r
  | none =>
    if doc.dns.rcode ≠ some "NOERROR" then
      some ("Unreachable", mkRat 99 100, "rule: dns_rcode=" ++ optStr doc.dns.rcode)
    else
      let status := (doc.http.status).getD 0
      if unreachableStatusCodes.contains status then
        some ("Unreachable", mkRat 98 100, "rule: http_status=" ++ toString status)
      else if blockedStatusCodes.contains status ∨ doc.http.blocked then
        some ("Blocked", mkRat 98 100, "rule: blocked")
      else if notFoundStatusCodes.contains status then
        some ("Unreachable", mkRat 95 100, "rule: http_status=" ++ toString status)
      else
        let snippet := pyLowerS ((doc.http.body_snippet).getD "")
        let title := pyLowerS ((doc.http.title).getD "")
        if [("domain for sale" : String), "sedo", "afternic"].any
            (fun kw => strContains snippet kw || strContains title kw) then
          some ("Parked", mkRat 95 100, "rule: parked_domain")
        else none

/-! ### The database engine's checks, taken apart -/

def dbTldCheck (doc : FetchDoc) : Option (String × ℚ × String) :=
  dbClassifyByTld ((doc.fqdn).getD "")

def dbDnsCheck (doc : FetchDoc) : Option (String × ℚ × String) :=
  if doc.dns.rcode ≠ some "NOERROR" then
    some ("Unreachable", mkRat 99 100, "rule: dns_rcode=" ++ optStr doc.dns.rcode)
  else none

def dbHttpUnreachableCheck (doc : FetchDoc) : Option (String × ℚ × String) :=
  if unreachableStatusCodes.contains ((doc.http.status).getD 0) then
    some ("Unreachable", mkRat 98 100,
      "rule: http_status=" ++ toString ((doc.http.status).getD 0))
  else none

def dbBlockedCheck (doc : FetchDoc) : Option (String × ℚ × String) :=
  if blockedStatusCodes.contains ((doc.http.status).getD 0) ∨ doc.http.blocked then
    some ("Blocked", mkRat 98 100, "rule: blocked")
  else none

def dbNotFoundCheck (doc : FetchDoc) : Option (String × ℚ × String) :=
  if notFoundStatusCodes.contains ((doc.http.status).getD 0) then
    some ("Unreachable", mkRat 95 100,
      "rule: http_status=" ++ toString ((doc.http.status).getD 0))
  else none

def dbParkedCheck (doc : FetchDoc) : Option (String × ℚ × String) :=
  if [("domain for sale" : String), "sedo", "afternic"].any
      (fun kw => strContains (pyLowerS ((doc.http.body_snippet).getD "")) kw ||
                 strContains (pyLowerS ((doc.http.title).getD "")) kw) then
    some ("Parked", mkRat 95 100, "rule: parked_domain")
  else none

/-- The check order of the database engine: six checks, no non-HTML
content-type rule. -/
def dbChecks (enableTldRules : Bool) :
    List (FetchDoc → Option (String × ℚ × String)) :=
  (if enableTldRules then [dbTldCheck] else []) ++
  [dbDnsCheck, dbHttpUnreachableCheck, dbBlockedCheck,
   dbNotFoundCheck, dbParkedCheck]

/-! ## SHA-256 (hashlib.sha256(content.encode utf-8).hexdigest())

A byte-level implementation over Nat with explicit mod 2^32 arithmetic,
used by ContentHashCache.compute_hash
(wxawebcat_fetcher_enhanced.py:209-211) and by the database classifier's
build_content_fingerprint (scripts/wxawebcat_classifier_db.py:179). -/

/-- UTF-8 encoding of one code point as bytes. -/
def utf8Encode (n : Nat) : List Nat :=
  if n < 128 then [n]
  else if n < 2048 then [192 + n / 64, 128 + n % 64]
  else if n < 65536 then [224 + n / 4096, 128 + (n / 64) % 64, 128 + n % 64]
  else [240 + n / 262144, 128 + (n / 4096) % 64, 128 + (n / 64) % 64, 128 + n % 64]

/-- UTF-8 bytes of a string. -/
def strBytes (s : String) : List Nat :=
  (s.data.map (fun c => utf8Encode c.toNat)).flatten

/-- Truncation to a 32-bit word. -/
def w32 (n : Nat) : Nat := n % 4294967296

/-- 32-bit right rotation. -/
def rotr32 (k x : Nat) : Nat := w32 ((x >>> k) + (x <<< (32 - k)))

/-- The SHA-256 round constants. -/
def sha256K : List Nat :=
  [
    1116352408, 1899447441, 3049323471, 3921009573, 961987163, 1508970993,
    2453635748, 2870763221, 3624381080, 310598401, 607225278, 1426881987,
    1925078388, 2162078206, 2614888103, 3248222580, 3835390401, 4022224774,
    264347078, 604807628, 770255983, 1249150122, 1555081692, 1996064986,
    2554220882, 2821834349, 2952996808, 3210313671, 3336571891, 3584528711,
    113926993, 338241895, 666307205, 773529912, 1294757372, 1396182291,
    1695183700, 1986661051, 2177026350, 2456956037, 2730485921, 2820302411,
    3259730800, 3345764771, 3516065817, 3600352804, 4094571909, 275423344,
    430227734, 506948616, 659060556, 883997877, 958139571, 1322822218,
    1537002063, 1747873779, 1955562222, 2024104815, 2227730452, 2361852424,
    2428436474, 2756734187, 3204031479, 3329325298 ]

/-- The SHA-256 initial hash state. -/
def sha256H0 : List Nat :=
  [ 1779033703, 3144134277, 1013904242, 2773480762,
    1359893119, 2600822924, 528734635, 1541459225 ]

/-- Big-endian bytes of a value, most significant first. -/
def beBytes (k : Nat) (n : Nat) : List Nat :=
  match k with
  | 0 => []
  | j + 1 => beBytes j (n / 256) ++ [n % 256]

/-- SHA-256 message padding: a 0x80 byte, zeros to 56 mod 64, and the
bit length as eight big-endian bytes. -/
def sha256Pad (msg : List Nat) : List Nat :=
  msg ++ [128] ++ List.replicate ((119 - msg.length % 64) % 64) 0 ++
    beBytes 8 (msg.length * 8)

/-- Split bytes into big-endian 32-bit words. -/
def toWords : List Nat → List Nat
  | b0 :: b1 :: b2 :: b3 :: rest =>
    (((b0 * 256 + b1) * 256 + b2) * 256 + b3) :: toWords rest
  | _ => []

/-- The small sigma-0 message schedule function. -/
def ssig0 (x : Nat) : Nat :=
  w32 (Nat.xor (Nat.xor (rotr32 7 x) (rotr32 18 x)) (x >>> 3))

/-- The small sigma-1 message schedule function. -/
def ssig1 (x : Nat) : Nat :=
  w32 (Nat.xor (Nat.xor (rotr32 17 x) (rotr32 19 x)) (x >>> 10))

/-- Extend the 16 chunk words to 64 schedule words; the argument counts
remaining extension steps. -/
def extendWords : Nat → List Nat → List Nat
  | 0, ws => ws
  | j + 1, ws =>
    let n := ws.length
    let w := w32 (ssig1 (ws.getD (n - 2) 0) + ws.getD (n - 7) 0 +
                  ssig0 (ws.getD (n - 15) 0) + ws.getD (n - 16) 0)
    extendWords j (ws ++ [w])

/-- The big sigma-0 compression function. -/
def bsig0 (x : Nat) : Nat :=
  w32 (Nat.xor (Nat.xor (rotr32 2 x) (rotr32 13 x)) (rotr32 22 x))

/-- The big sigma-1 compression function. -/
def bsig1 (x : Nat) : Nat :=
  w32 (Nat.xor (Nat.xor (rotr32 6 x) (rotr32 11 x)) (rotr32 25 x))

/-- Choose: bitwise e-selects f over g. -/
def chFn (e f g : Nat) : Nat :=
  w32 (Nat.xor (Nat.land e f) (Nat.land (4294967295 - e) g))

/-- Majority of three words, bitwise. -/
def majFn (a b c : Nat) : Nat :=
  w32 (Nat.xor (Nat.xor (Nat.land a b) (Nat.land a c)) (Nat.land b c))

/-- One compression round; the state is the eight working words. -/
def sha256Round (st : List Nat) (kw : Nat × Nat) : List Nat :=
  match st with
  | [a, b, c, d, e, f, g, h] =>
    let t1 := w32 (h + bsig1 e + chFn e f g + kw.1 + kw.2)
    let t2 := w32 (bsig0 a + majFn a b c)
    [w32 (t1 + t2), a, b, c, w32 (d + t1), e, f, g]
  | other => other

/-- Process one 64-byte chunk into the running hash state. -/
def sha256Chunk (hst : List Nat) (chunk : List Nat) : List Nat :=
  let ws := extendWords 48 (toWords chunk)
  let st := (sha256K.zip ws).foldl sha256Round hst
  (hst.zip st).map (fun p => w32 (p.1 + p.2))

/-- Split a list into chunks of the given size. -/
def chunksOf (k : Nat) (l : List Nat) : List (List Nat) :=
  if h : l = [] ∨ k = 0 then []
  else l.take k :: chunksOf k (l.drop k)
termination_by l.length
decreasing_by
  simp only [not_or] at h
  have h1 : l ≠ [] := h.1
  have h2 : k ≠ 0 := h.2
  have : 0 < l.length := List.length_pos.mpr h1
  have : l.length - k < l.length := by
    have : 0 < k := Nat.pos_of_ne_zero h2
    omega
  simpa using this

/-- One hexadecimal digit character. -/
def hexDigit (n : Nat) : Char :=
  if n < 10 then Char.ofNat (48 + n) else Char.ofNat (87 + n)

/-- Two lower-case hex digits of a byte. -/
def hexByte (n : Nat) : List Char := [hexDigit (n / 16), hexDigit (n % 16)]

/-- SHA-256 digest of a byte list, as the lower-case hex string Python's
hexdigest() returns. -/
def sha256Hex (msg : List Nat) : String :=
  let hs := (chunksOf 64 (sha256Pad msg)).foldl sha256Chunk sha256H0
  ⟨(hs.map (fun w => (beBytes 4 w).map hexByte)).flatten.flatten⟩

/-- ContentHashCache.compute_hash (wxawebcat_fetcher_enhanced.py:209-211):
SHA-256 hex digest of the UTF-8 bytes of the content string. -/
def computeHash (content : String) : String := sha256Hex (strBytes content)

/-! ## Content fingerprints -/

/-- build_content_fingerprint (wxawebcat_fetcher_enhanced.py:236-254):
normalized title, meta description and body snippet joined by single
spaces and stripped; None when the combined text is shorter than 50
characters.  The 50 is a literal in the source, independent of the
configured min_content_length_for_hash. -/
def buildContentFingerprint (doc : FetchDoc) : Option String :=
  let title := normText doc.http.title
  let snippet := normText doc.http.body_snippet
  let metaDesc := normText doc.http.metaDescription
  let combined := stripS (title ++ " " ++ metaDesc ++ " " ++ snippet)
  if combined.length < 50 then none else some combined

/-- The combined text of the file-based fingerprint on character lists,
associated as the string concatenation in build_content_fingerprint is. -/
def combinedL (title metaDesc snippet : List Char) : List Char :=
  stripL (title ++ (' ' :: (metaDesc ++ (' ' :: snippet))))

/-- build_content_fingerprint of the database classifier
(scripts/wxawebcat_classifier_db.py:170-179): stripped title, stripped
meta description and the stripped first 500 characters of the snippet
joined by pipe characters, lower-cased, whitespace-collapsed, and then
hashed unconditionally. -/
def dbBuildContentFingerprint (http : HttpRecord) : String :=
  let title := stripS ((http.title).getD "")
  let metaDesc := stripS ((http.metaDescription).getD "")
  let snippet := stripS ⟨((http.body_snippet).getD "").data.take 500⟩
  let combined := pyLowerS (title ++ "|" ++ metaDesc ++ "|" ++ snippet)
  computeHash ⟨collapseWs combined.data⟩

/-! ## The file-based classifier worker (process_one,
wxawebcat_fetcher_enhanced.py:470-644)

The worker's effects are captured as a pure function of the
configuration, the resume state (does the output file already exist),
the loaded document (or the exception raised while loading), the
content-hash cache (a lookup function, as the Python dict), and the
outcome of the single LLM call. -/

/-- The configuration fields consulted by process_one. -/
structure ClsCfg where
  enableContentHashDedup : Bool
  enableTldRules : Bool
  minContentLengthForHash : Nat
deriving DecidableEq

/-- One entry of the content-hash cache: category, confidence, and the
optional example_fqdn key. -/
structure CacheEntry where
  category : String
  confidence : ℚ
  exampleFqdn : Option String
deriving DecidableEq

/-- The JSON object a successfully parsed LLM reply yields; every key
may be absent. -/
structure ParsedReply where
  category : Option String
  confidence : Option ℚ
  rationale : Option String
deriving DecidableEq

/-- Outcome of the LLM call inside process_one: a parsed JSON reply, a
reply that is not JSON (llm_classify returns ok=False), or an exception
raised by the HTTP call (caught by the outer except). -/
inductive LlmOutcome where
  | parsed (p : ParsedReply)
  | notJson (content : String)
  | raised (msg : String)
deriving DecidableEq

/-- The decision block of the classification record process_one writes. -/
structure Decision where
  method : String
  category : String
  confidence : ℚ
  reason : String
deriving DecidableEq

/-- Observable effects of one process_one call: whether the file was
skipped (resume), the decision written (none when no output file was
produced), how many lines were appended to the error log, whether the
LLM was called, the content hash computed for the cache lookup (none
when no fingerprint was computed), and the cache insertion performed. -/
structure ProcOut where
  skipped : Bool
  written : Option Decision
  errorLogLines : Nat
  llmCalled : Bool
  cacheKey : Option String
  cacheInsert : Option (String × String × ℚ)
deriving DecidableEq

/-- The LLM stage of process_one (wxawebcat_fetcher_enhanced.py:562-635):
the error path writes method error with category Other and confidence 0
and appends to the error log; the success path writes method llm and
populates the content-hash cache when a hash was computed. -/
def llmStage (cfg : ClsCfg) (chash : Option String) (reply : LlmOutcome) :
    ProcOut :=
  match reply with
  | .raised _ => ⟨false, none, 1, true, chash, none⟩
  | .notJson _ =>
    ⟨false, some ⟨"error", "Other", 0, "llm_return_not_json"⟩, 1, true, chash, none⟩
  | .parsed p =>
    let cat := (p.category).getD "Other"
    let conf := (p.confidence).getD (mkRat 1 2)
    let ins := if cfg.enableContentHashDedup then
        (match chash with
         | some hsh => some (hsh, cat, conf)
         | none => none)
      else none
    ⟨false, some ⟨"llm", cat, conf, (p.rationale).getD ""⟩, 0, true, chash, ins⟩

/-- The fingerprint-cache stage of process_one
(wxawebcat_fetcher_enhanced.py:528-560): compute the content hash when
dedup is enabled and the fingerprint exists, and reuse a cached
classification on a hit. -/
def cacheStage (cfg : ClsCfg) (doc : FetchDoc)
    (cache : String → Option CacheEntry) (reply : LlmOutcome) : ProcOut :=
  let chash : Option String :=
    if cfg.enableContentHashDedup then
      (buildContentFingerprint doc).map computeHash
    else none
  match chash with
  | some hsh =>
    match cache hsh with
    | some entry =>
      ⟨false,
       some ⟨"hash_cache", entry.category, entry.confidence,
         "content hash match (similar to " ++
           (entry.exampleFqdn).getD "previous domain" ++ ")"⟩,
       0, false, some hsh, none⟩
    | none => llmStage cfg (some hsh) reply
  | none => llmStage cfg none reply

/-- process_one of the file-based classifier
(wxawebcat_fetcher_enhanced.py:470-644): resume-skip, rules first, then
fingerprint cache, then the LLM; every exception is caught and appended
to the error log with no output file written. -/
def processOne (cfg : ClsCfg) (outExists : Bool)
    (load : Except String FetchDoc)
    (cache : String → Option CacheEntry) (reply : LlmOutcome) : ProcOut :=
  if outExists then ⟨true, none, 0, false, none, none⟩
  else
    match load with
    | .error _ => ⟨false, none, 1, false, none, none⟩
    | .ok doc =>
      match rulePreclass doc cfg.enableTldRules with
      | some (cat, conf, reason) =>
        ⟨false, some ⟨"rules", cat, conf, reason⟩, 0, false, none, none⟩
      | none => cacheStage cfg doc cache reply

/-! ## The database classifier worker (process_one,
scripts/wxawebcat_classifier_db.py:244-339) and batch_insert
(scripts/wxawebcat_classifier_db.py:342-382) -/

/-- Outcome of llm_classify in the database classifier: ok with a parsed
reply, or failed (any exception, including an unparseable body, yields
ok=False). -/
inductive DbLlmOutcome where
  | ok (p : ParsedReply)
  | failed (err : String)
deriving DecidableEq

/-- One result row the database worker hands to batch_insert. -/
structure DbResult where
  domainId : Nat
  fqdn : String
  method : String
  category : String
  confidence : ℚ
  reason : String
  contentHash : Option String
deriving DecidableEq

/-- process_one of the database classifier
(scripts/wxawebcat_classifier_db.py:244-339): rules, then the
content-hash cache gated on the raw body-snippet length against the
configured minimum, then the LLM.  A failed LLM call returns None — no
result row is produced at all. -/
def dbProcessOne (cfg : ClsCfg) (domainId : Nat) (fqdn : String)
    (doc : FetchDoc) (cache : String → Option (String × ℚ × String))
    (reply : DbLlmOutcome) : Option DbResult :=
  match dbRulePreclass doc cfg.enableTldRules with
  | some (cat, conf, reason) =>
    some ⟨domainId, fqdn, "rules", cat, conf, reason, none⟩
  | none =>
    let snippet := ((doc.http.body_snippet).getD "")
    let gate := cfg.enableContentHashDedup ∧
      cfg.minContentLengthForHash ≤ snippet.length
    let hit : Option DbResult :=
      if gate then
        let hsh := dbBuildContentFingerprint doc.http
        match cache hsh with
        | some (cat, conf, exFqdn) =>
          some ⟨domainId, fqdn, "hash_cache", cat, conf,
            "hash_cache: matched " ++ exFqdn, some hsh⟩
        | none => none
      else none
    match hit with
    | some r => some r
    | none =>
      match reply with
      | .failed _ => none
      | .ok p =>
        let cat := (p.category).getD "Other"
        let conf := (p.confidence).getD (mkRat 1 2)
        let chash := if gate then some (dbBuildContentFingerprint doc.http) else none
        some ⟨domainId, fqdn, "llm", cat, conf, (p.rationale).getD "", chash⟩

/-- The rows batch_insert writes
(scripts/wxawebcat_classifier_db.py:342-382): classification rows and
classified-flag updates for every non-None result, and a
content_hash_cache upsert when the result has a content hash and came
from the LLM. -/
structure BatchEffect where
  classificationRows : List DbResult
  classifiedIds : List Nat
  cacheUpserts : List (String × String × ℚ × String)
deriving DecidableEq

/-- batch_insert (scripts/wxawebcat_classifier_db.py:342-382). -/
def dbBatchInsert (results : List (Option DbResult)) : BatchEffect :=
  let rows := results.filterMap id
  { classificationRows := rows,
    classifiedIds := rows.map (fun r => r.domainId),
    cacheUpserts := rows.filterMap (fun r =>
      match r.contentHash with
      | some hsh => if r.method = "llm"
          then some (hsh, r.category, r.confidence, r.fqdn) else none
      | none => none) }

/-! ## The database web fetcher
(scripts/wxawebcat_web_fetcher_db.py:205-292 and 488-541) -/

/-- The dns_lookup result dict: the fetcher always sets a concrete
rcode string. -/
structure FDns where
  rcode : String
  a : List String
  aaaa : List String
  cname : List String
  mx : List String
deriving DecidableEq

/-- A successful httpx response as http_fetch consumes it: status code,
final URL, the content-type header, all headers, and the body text. -/
structure HttpResp where
  statusCode : Int
  url : String
  contentType : String
  headers : List (String × String)
  text : String
deriving DecidableEq

/-- The outcome of one client.get attempt inside http_fetch's URL loop:
a response, or one of the caught exception classes
(scripts/wxawebcat_web_fetcher_db.py:243-259). -/
inductive HttpAttempt where
  | ok (r : HttpResp)
  | timeout
  | connectError
  | poolTimeout
  | tooManyRedirects
  | otherExn (tag : String)
deriving DecidableEq

/-- The page features the (out-of-scope) extractor produces from an HTML
body: extract_title, extract_meta_description and extract_visible_text.
The extractor itself is a parameter of the embedding, as the
specification treats HTML field extraction as an external collaborator. -/
structure PageFeatures where
  title : Option String
  metaDescription : Option String
  snippet : String
deriving DecidableEq

/-- The http result dict of http_fetch. -/
structure FHttp where
  status : Int
  final_url : Option String
  title : Option String
  content_type : Option String
  headers : List (String × String)
  body_snippet : Option String
  metaDescription : Option String
  blocked : Bool
  block_reason : Option String
  fetch_method : String
  error : Option String
deriving DecidableEq

/-- The initial result dict of http_fetch
(scripts/wxawebcat_web_fetcher_db.py:208-212). -/
def emptyFHttp : FHttp :=
  ⟨0, none, none, none, [], none, none, false, none, "httpx", none⟩

/-- The block-signature keywords http_fetch checks in the lowered body
(scripts/wxawebcat_web_fetcher_db.py:229). -/
def fetcherBlockKeywords : List String := ["cloudflare", "access denied", "captcha"]

/-- Field updates of one failed attempt; each failure overwrites status
and error and the loop continues to the next URL. -/
def applyFail (res : FHttp) : HttpAttempt → FHttp
  | .ok _ => res
  | .timeout => { res with status := 408, error := some "timeout" }
  | .connectError => { res with status := 0, error := some "connect_error" }
  | .poolTimeout => { res with status := 0, error := some "pool_timeout" }
  | .tooManyRedirects => { res with status := 0, error := some "too_many_redirects" }
  | .otherExn tag => { res with status := 0, error := some tag }

/-- Field updates of one successful attempt
(scripts/wxawebcat_web_fetcher_db.py:221-241): response fields, the
WAF/CAPTCHA blocked flag on 403/429, and the extracted page features on
an HTML content type.  The error field set by an earlier failed attempt
is not cleared. -/
def applyOk (extract : String → PageFeatures) (res : FHttp) (r : HttpResp) : FHttp :=
  let res := { res with status := r.statusCode, final_url := some r.url,
                        content_type := some r.contentType, headers := r.headers }
  let res :=
    if (r.statusCode = 403 ∨ r.statusCode = 429) ∧
        anyPat fetcherBlockKeywords (pyLowerS r.text) then
      { res with blocked := true, block_reason := some "waf_or_captcha" }
    else res
  if strContains r.contentType "text/html" then
    let f := extract r.text
    { res with title := f.title, metaDescription := f.metaDescription,
               body_snippet := some f.snippet }
  else res

/-- The URL loop of http_fetch: a success breaks out; a failure records
its status and error tag and the loop continues. -/
def runAttempts (extract : String → PageFeatures) (res : FHttp) :
    List HttpAttempt → FHttp
  | [] => res
  | .ok r :: _ => applyOk extract res r
  | att :: rest => runAttempts extract (applyFail res att) rest

/-- http_fetch (scripts/wxawebcat_web_fetcher_db.py:205-261): return the
empty result without attempting any request unless the DNS outcome is
NOERROR with at least one A or AAAA record; otherwise run the
HTTPS-then-HTTP attempt list. -/
def httpFetch (extract : String → PageFeatures) (dns : FDns)
    (attempts : List HttpAttempt) : FHttp :=
  if dns.rcode ≠ "NOERROR" ∨ (dns.a = [] ∧ dns.aaaa = []) then emptyFHttp
  else runAttempts extract emptyFHttp attempts

/-- The fetch-status derivation of fetch_domain
(scripts/wxawebcat_web_fetcher_db.py:277-285). -/
def fetchStatusOf (dns : FDns) (http : FHttp) : String :=
  if dns.rcode ≠ "NOERROR" then "dns_failed"
  else if http.status = 0 then "http_failed"
  else if http.blocked then "blocked"
  else "success"

/-- The record fetch_domain returns
(scripts/wxawebcat_web_fetcher_db.py:287-292). -/
structure FetchRec where
  fqdn : String
  dns : FDns
  http : FHttp
  fetch_status : String
deriving DecidableEq

/-- fetch_domain (scripts/wxawebcat_web_fetcher_db.py:264-292): DNS, then
HTTP, then the derived fetch status. -/
def fetchDomain (extract : String → PageFeatures) (domain : String)
    (dns : FDns) (attempts : List HttpAttempt) : FetchRec :=
  let http := httpFetch extract dns attempts
  ⟨domain, dns, http, fetchStatusOf dns http⟩

/-- What happens to one domain inside the fetcher's batch: fetch_domain
returns a record, or some exception escapes it. -/
inductive DomOutcome where
  | ok (r : FetchRec)
  | exn (domain : String) (msg : String)
deriving DecidableEq

/-- process_one of the database web fetcher
(scripts/wxawebcat_web_fetcher_db.py:488-509): any exception is caught
and turned into None; both branches count the domain as completed. -/
def wProcessOne : DomOutcome → Option FetchRec
  | .ok r => some r
  | .exn _ _ => none

/-- One batch of the fetcher's main loop
(scripts/wxawebcat_web_fetcher_db.py:538-541): every domain is processed
independently and None results are filtered out before the insert. -/
def wBatchResults (outs : List DomOutcome) : List (Option FetchRec) :=
  outs.map wProcessOne

/-- The fqdns batch_insert_domains upserts for one batch
(scripts/wxawebcat_web_fetcher_db.py:383-405 via 554-557). -/
def wInsertedFqdns (outs : List DomOutcome) : List String :=
  ((wBatchResults outs).filterMap id).map (fun r => r.fqdn)

/-- The completed counter after one batch: stats.completed is
incremented in the success and the exception branch alike. -/
def wCompleted (outs : List DomOutcome) : Nat := outs.length

/-! ## The DNS resolver pool rate limiter
(DNSResolverPool.get_resolver, scripts/wxawebcat_web_fetcher_db.py:172-202)

Wall-clock instants are rationals (seconds).  One acquisition at instant
now with the stored last_query_time returns the instant at which the
caller proceeds and the new stored last_query_time: when the elapsed
time since the last query is below the configured delay the caller
sleeps for the difference. -/

/-- One get_resolver acquisition: (completion instant, new state). -/
def rlAcquire (delay last now : ℚ) : ℚ × ℚ :=
  if 0 < delay then
    if now - last < delay then (last + delay, last + delay) else (now, now)
  else (now, last)

/-- Completion instants of a sequence of acquisitions arriving at the
given instants, threading the stored last_query_time. -/
def rlRun (delay last : ℚ) : List ℚ → List ℚ
  | [] => []
  | a :: rest =>
    let p := rlAcquire delay last a
    p.1 :: rlRun delay p.2 rest

/-- The sleep performed by one acquisition. -/
def rlWait (delay last now : ℚ) : ℚ := (rlAcquire delay last now).1 - now

/-! ## Concrete documents used in the witness and counterexample
theorems -/

/-- An http sub-dict with every optional field absent. -/
def emptyHttpRecord : HttpRecord :=
  { status := none, final_url := none, content_type := none,
    headersContentType := none, title := none, body_snippet := none,
    metaDescription := none, blocked := false }

/-- A record whose DNS lookup returned NXDOMAIN for a name under .edu. -/
def eduNxDoc : FetchDoc :=
  { fqdn := some "nxd.sample-college.edu", domain := none,
    dns := { rcode := some "NXDOMAIN", a := [], aaaa := [], cname := [], mx := [] },
    http := emptyHttpRecord }

/-- A reachable record serving a PNG image and matching no other rule. -/
def imgDoc : FetchDoc :=
  { fqdn := some "pics.sample-site.com", domain := none,
    dns := { rcode := some "NOERROR", a := ["1.2.3.4"], aaaa := [], cname := [], mx := [] },
    http := { emptyHttpRecord with
              status := some 200, content_type := some "image/png" } }

/-- A 403 record whose title ends with the first word and whose snippet
begins with the second word of a block signature, so the signature
matches only across the title-snippet join. -/
def boundary403Doc : FetchDoc :=
  { fqdn := some "sample-site.com", domain := none,
    dns := { rcode := some "NOERROR", a := ["1.2.3.4"], aaaa := [], cname := [], mx := [] },
    http := { emptyHttpRecord with
              status := some 403,
              title := some "Access", body_snippet := some "Denied" } }

/-- A 403 record with no block keywords at all and no blocked flag. -/
def plain403Doc : FetchDoc :=
  { fqdn := some "sample-site.com", domain := none,
    dns := { rcode := some "NOERROR", a := ["1.2.3.4"], aaaa := [], cname := [], mx := [] },
    http := { emptyHttpRecord with
              status := some 403,
              title := some "Welcome", body_snippet := some "Hello" } }

/-- A reachable record with short content that matches no rule: its
classification reaches the LLM with no fingerprint. -/
def shortContentDoc : FetchDoc :=
  { fqdn := some "tiny.sample-site.com", domain := none,
    dns := { rcode := some "NOERROR", a := ["1.2.3.4"], aaaa := [], cname := [], mx := [] },
    http := { emptyHttpRecord with
              status := some 200,
              content_type := some "text/html",
              title := some "hi", body_snippet := some "hello" } }

/-- A reachable rule-less record whose combined normalized content is 60
characters long: above the hard-coded 50 but below a configured minimum
of 100. -/
def midContentDoc : FetchDoc :=
  { fqdn := some "mid.sample-site.com", domain := none,
    dns := { rcode := some "NOERROR", a := ["1.2.3.4"], aaaa := [], cname := [], mx := [] },
    http := { emptyHttpRecord with
              status := some 200,
              content_type := some "text/html",
              title := some "a marketing headline for a very generic small business site" } }

/-- The empty content-hash cache. -/
def emptyCache : String → Option CacheEntry := fun _ => none

/-- A configuration with every feature enabled and the default minimum
fingerprint length 50. -/
def defaultCfg : ClsCfg :=
  { enableContentHashDedup := true, enableTldRules := true,
    minContentLengthForHash := 50 }

/-- The default configuration with min_content_length set to 100. -/
def min100Cfg : ClsCfg :=
  { enableContentHashDedup := true, enableTldRules := true,
    minContentLengthForHash := 100 }

/-! ## Example values used by the witnesses and counterexamples -/

/-- The error tag each failure branch of http_fetch records. -/
def attemptErrTag : HttpAttempt → Option String
  | .ok _ => none
  | .timeout => some "timeout"
  | .connectError => some "connect_error"
  | .poolTimeout => some "pool_timeout"
  | .tooManyRedirects => some "too_many_redirects"
  | .otherExn tag => some tag

/-- A short fetch record whose title is "a": combined content far below 50. -/
def tinyDocA : FetchDoc :=
  { fqdn := some "tiny-a.sample-site.com", domain := none,
    dns := { rcode := some "NOERROR", a := ["1.2.3.4"], aaaa := [], cname := [], mx := [] },
    http := { emptyHttpRecord with
              status := some 200, content_type := some "text/html",
              title := some "a", body_snippet := some "hello" } }

/-- Same as tinyDocA except the title is "b". -/
def tinyDocB : FetchDoc :=
  { fqdn := some "tiny-b.sample-site.com", domain := none,
    dns := { rcode := some "NOERROR", a := ["1.2.3.4"], aaaa := [], cname := [], mx := [] },
    http := { emptyHttpRecord with
              status := some 200, content_type := some "text/html",
              title := some "b", body_snippet := some "hello" } }

/-- A record with a 59-character title and one fqdn. -/
def dupDocA : FetchDoc :=
  { fqdn := some "one.sample-site.com", domain := none,
    dns := { rcode := some "NOERROR", a := ["1.2.3.4"], aaaa := [], cname := [], mx := [] },
    http := { emptyHttpRecord with
              status := some 200, content_type := some "text/html",
              title := some "A Marketing Headline For A Very Generic Small Business Site" } }

/-- The same content triple as dupDocA under a different fqdn. -/
def dupDocB : FetchDoc :=
  { fqdn := some "two.sample-site.com", domain := none,
    dns := { rcode := some "NOERROR", a := ["1.2.3.4"], aaaa := [], cname := [], mx := [] },
    http := { emptyHttpRecord with
              status := some 200, content_type := some "text/html",
              title := some "A Marketing Headline For A Very Generic Small Business Site" } }

/-- A record with a long title differing from dupDocA's. -/
def longDocB : FetchDoc :=
  { fqdn := some "three.sample-site.com", domain := none,
    dns := { rcode := some "NOERROR", a := ["1.2.3.4"], aaaa := [], cname := [], mx := [] },
    http := { emptyHttpRecord with
              status := some 200, content_type := some "text/html",
              title := some "Another Marketing Headline For A Generic Small Business Page" } }

/-- A simple concrete page-feature extractor for example runs. -/
def wExtract : String → PageFeatures := fun t => ⟨some t, none, t⟩

/-- A resolvable DNS outcome for example runs. -/
def wDns : FDns := ⟨"NOERROR", ["93.184.216.34"], [], [], []⟩

/-- A successful HTML response for example runs. -/
def wResp : HttpResp :=
  ⟨200, "http://a.example.com/", "text/html", [("server", "nginx")], "Hi"⟩

/-! ## Theorems -/

set_option maxHeartbeats 1000000

/-- The element at which dropWhile stops fails the predicate. -/
theorem dropWhile_head_false {α : Type} (p : α → Bool) :
    ∀ (l : List α) (c : α) (rest : List α),
      l.dropWhile p = c :: rest → p c = false := by
  intro l
  induction l with
  | nil => intro c rest h; simp [List.dropWhile] at h
  | cons a t ih =>
    intro c rest h
    by_cases ha : p a = true
    · rw [List.dropWhile_cons_of_pos ha] at h
      exact ih c rest h
    · rw [List.dropWhile_cons_of_neg ha] at h
      cases h
      exact Bool.eq_false_iff.mpr ha


theorem firstSuffixKey_mem_suffix :
    ∀ (ks : List String) (f : List Char) (t : String),
      firstSuffixKey ks f = some t → t ∈ ks ∧ suffixL t.data f = true := by
  intro ks
  induction ks with
  | nil => intro f t h; simp [firstSuffixKey] at h
  | cons k rest ih =>
    intro f t h
    by_cases hk : suffixL k.data f = true
    · simp only [firstSuffixKey, if_pos hk, Option.some.injEq] at h
      subst h
      exact ⟨List.mem_cons_self _ _, hk⟩
    · simp only [firstSuffixKey, if_neg hk] at h
      obtain ⟨hm, hs⟩ := ih f t h
      exact ⟨List.mem_cons_of_mem _ hm, hs⟩

theorem firstSuffixKey_longest :
    ∀ (ks : List String) (f : List Char) (t : String),
      ks.Pairwise (fun a b => b.length ≤ a.length) →
      firstSuffixKey ks f = some t →
      ∀ t' ∈ ks, suffixL t'.data f = true → t'.length ≤ t.length := by
  intro ks
  induction ks with
  | nil => intro f t _ h; simp [firstSuffixKey] at h
  | cons k rest ih =>
    intro f t hsort h t' hmem hsuf'
    obtain ⟨hhead, htail⟩ := List.pairwise_cons.mp hsort
    by_cases hk : suffixL k.data f = true
    · simp only [firstSuffixKey, if_pos hk, Option.some.injEq] at h
      subst h
      rcases List.mem_cons.mp hmem with rfl | hm
      · exact le_refl _
      · exact hhead t' hm
    · simp only [firstSuffixKey, if_neg hk] at h
      rcases List.mem_cons.mp hmem with rfl | hm
      · exact absurd hsuf' hk
      · exact ih f t htail h t' hm hsuf'

theorem firstSuffixKey_none :
    ∀ (ks : List String) (f : List Char),
      firstSuffixKey ks f = none →
      ∀ t ∈ ks, suffixL t.data f = false := by
  intro ks
  induction ks with
  | nil => intro f _ t hm; simp at hm
  | cons k rest ih =>
    intro f h t hm
    by_cases hk : suffixL k.data f = true
    · simp [firstSuffixKey, if_pos hk] at h
    · simp only [firstSuffixKey, if_neg hk] at h
      rcases List.mem_cons.mp hm with rfl | hmm
      · exact Bool.not_eq_true _ ▸ Bool.of_not_eq_true hk
      · exact ih f h t hmm

theorem lastLabel_suffix (l : List Char) (h : l.contains '.' = true) :
    suffixL ('.' :: lastLabel l) l = true := by
  have hmem : '.' ∈ l.reverse := by
    rw [List.mem_reverse]
    simpa using h
  set p : Char → Bool := fun c => c != '.' with hp
  set tw : List Char := l.reverse.takeWhile p with htw
  have hne : l.reverse.dropWhile p ≠ [] := by
    intro hnil
    rw [List.dropWhile_eq_nil_iff] at hnil
    have := hnil '.' hmem
    simp [hp] at this
  obtain ⟨c, rest, hcr⟩ : ∃ c rest, l.reverse.dropWhile p = c :: rest := by
    cases hd : l.reverse.dropWhile p with
    | nil => exact absurd hd hne
    | cons c rest => exact ⟨c, rest, rfl⟩
  have hc : c = '.' := by
    have := dropWhile_head_false p l.reverse c rest hcr
    simpa [hp] using this
  subst hc
  have hsplit : l.reverse = tw ++ '.' :: rest := by
    conv_lhs => rw [← List.takeWhile_append_dropWhile (p := p) (l := l.reverse)]
    rw [hcr]
  have hll : lastLabel l = tw.reverse := rfl
  unfold suffixL
  rw [List.isPrefixOf_iff_prefix, hll]
  have hrev : ('.' :: tw.reverse).reverse = tw ++ ['.'] := by simp
  rw [hrev]
  refine ⟨rest, ?_⟩
  rw [hsplit]
  simp

theorem extractTld_eq (fqdn : String) (hf : fqdn ≠ "") :
    extractTld fqdn =
      match firstSuffixKey sortedTldKeys (rstripDots (fqdn.data.map pyLowerC)) with
      | some t0 => some t0
      | none =>
        if (rstripDots (fqdn.data.map pyLowerC)).contains '.' = true then
          match tldLookup tldCategoryMap ⟨'.' :: lastLabel (rstripDots (fqdn.data.map pyLowerC))⟩ with
          | some _ => some ⟨'.' :: lastLabel (rstripDots (fqdn.data.map pyLowerC))⟩
          | none => none
        else none := by
  unfold extractTld
  rw [if_neg hf]

theorem tldLookup_isSome_mem :
    ∀ (m : List (String × String × ℚ × String)) (k : String),
      (tldLookup m k).isSome = true → k ∈ m.map Prod.fst := by
  intro m
  induction m with
  | nil => intro k h; simp [tldLookup] at h
  | cons e rest ih =>
    intro k h
    obtain ⟨k0, cat, conf, desc⟩ := e
    by_cases hk : k0 = k
    · subst hk; simp
    · simp only [tldLookup, if_neg hk] at h
      simpa using Or.inr (by simpa using ih k h)

theorem mem_tldLookup_isSome :
    ∀ (m : List (String × String × ℚ × String)) (k : String),
      k ∈ m.map Prod.fst → (tldLookup m k).isSome = true := by
  intro m
  induction m with
  | nil => intro k h; simp at h
  | cons e rest ih =>
    intro k h
    obtain ⟨k0, cat, conf, desc⟩ := e
    by_cases hk : k0 = k
    · simp [tldLookup, if_pos hk]
    · simp only [List.map_cons, List.mem_cons] at h
      rcases h with h | h
      · exact absurd h.symm hk
      · simp only [tldLookup, if_neg hk]
        exact ih k h

theorem sortedTldKeys_perm : (tldCategoryMap.map Prod.fst).Perm sortedTldKeys := by
  decide

theorem sortedTldKeys_sorted :
    sortedTldKeys.Pairwise (fun a b => b.length ≤ a.length) := by
  decide

theorem extractTld_some_spec (fqdn t : String) (h : extractTld fqdn = some t) :
    (tldLookup tldCategoryMap t).isSome = true ∧
    suffixL t.data (rstripDots (fqdn.data.map pyLowerC)) = true ∧
    ∀ t' : String, (tldLookup tldCategoryMap t').isSome = true →
      suffixL t'.data (rstripDots (fqdn.data.map pyLowerC)) = true →
      t'.length ≤ t.length := by
  by_cases hf : fqdn = ""
  · rw [hf] at h; simp [extractTld] at h
  · rw [extractTld_eq fqdn hf] at h
    cases hfs : firstSuffixKey sortedTldKeys (rstripDots (fqdn.data.map pyLowerC)) with
    | some t0 =>
      rw [hfs] at h
      simp only [Option.some.injEq] at h
      subst h
      obtain ⟨hmem, hsuf⟩ := firstSuffixKey_mem_suffix _ _ _ hfs
      refine ⟨mem_tldLookup_isSome _ _ (sortedTldKeys_perm.mem_iff.mpr hmem), hsuf, ?_⟩
      intro t' hl' hs'
      exact firstSuffixKey_longest _ _ _ sortedTldKeys_sorted hfs t'
        (sortedTldKeys_perm.mem_iff.mp (tldLookup_isSome_mem _ _ hl')) hs'
    | none =>
      rw [hfs] at h
      by_cases hc : (rstripDots (fqdn.data.map pyLowerC)).contains '.' = true
      · rw [if_pos hc] at h
        cases hl : tldLookup tldCategoryMap
            ⟨'.' :: lastLabel (rstripDots (fqdn.data.map pyLowerC))⟩ with
        | none => rw [hl] at h; simp at h
        | some v =>
          rw [hl] at h
          simp only [Option.some.injEq] at h
          subst h
          have hmemk : (⟨'.' :: lastLabel (rstripDots (fqdn.data.map pyLowerC))⟩ : String) ∈
              sortedTldKeys :=
            sortedTldKeys_perm.mem_iff.mp (tldLookup_isSome_mem _ _ (by rw [hl]; rfl))
          have hsuf := lastLabel_suffix (rstripDots (fqdn.data.map pyLowerC)) hc
          have hfalse := firstSuffixKey_none _ _ hfs _ hmemk
          rw [hfalse] at hsuf
          exact absurd hsuf (by simp)
      · rw [if_neg hc] at h
        simp at h

theorem extractTld_none_spec (fqdn : String) (h : extractTld fqdn = none) :
    ∀ t' : String, (tldLookup tldCategoryMap t').isSome = true →
      suffixL t'.data (rstripDots (fqdn.data.map pyLowerC)) = false := by
  intro t' hl'
  have hmem : t' ∈ sortedTldKeys :=
    sortedTldKeys_perm.mem_iff.mp (tldLookup_isSome_mem _ _ hl')
  by_cases hf : fqdn = ""
  · subst hf
    have hnil : rstripDots (("" : String).data.map pyLowerC) = [] := rfl
    rw [hnil]
    have hall : sortedTldKeys.all (fun k => !(suffixL k.data [])) = true := by decide
    have := List.all_eq_true.mp hall t' hmem
    simpa using this
  · rw [extractTld_eq fqdn hf] at h
    cases hfs : firstSuffixKey sortedTldKeys (rstripDots (fqdn.data.map pyLowerC)) with
    | some t0 => rw [hfs] at h; simp at h
    | none => exact firstSuffixKey_none _ _ hfs t' hmem

theorem pySpace_space : pySpace ' ' = true := by decide

theorem lstripL_append (U V : List Char) :
    lstripL (U ++ V) = if lstripL U = [] then lstripL V else lstripL U ++ V := by
  unfold lstripL
  rw [List.dropWhile_append]
  by_cases h : U.dropWhile pySpace = [] <;> simp [h]

theorem rstripL_nil_iff (V : List Char) :
    rstripL V = [] ↔ ∀ x ∈ V, pySpace x = true := by
  unfold rstripL
  rw [List.reverse_eq_nil_iff, List.dropWhile_eq_nil_iff]
  constructor
  · intro h x hx
    exact h x (List.mem_reverse.mpr hx)
  · intro h x hx
    exact h x (List.mem_reverse.mp hx)

theorem rstripL_append (U V : List Char) :
    rstripL (U ++ V) = if rstripL V = [] then rstripL U else U ++ rstripL V := by
  unfold rstripL
  rw [List.reverse_append, List.dropWhile_append]
  by_cases h : (V.reverse.dropWhile pySpace) = []
  · rw [if_pos (by simp [h]), if_pos (by simp [h])]
  · rw [if_neg (by simp [h]), if_neg (by simp [h])]
    simp

theorem lstripL_cons_space (Y : List Char) : lstripL (' ' :: Y) = lstripL Y := by
  unfold lstripL
  exact List.dropWhile_cons_of_pos pySpace_space

theorem rstripL_cons_space (Y : List Char) :
    rstripL (' ' :: Y) = if rstripL Y = [] then [] else ' ' :: rstripL Y := by
  have h : (' ' :: Y) = [' '] ++ Y := rfl
  rw [h, rstripL_append]
  by_cases hY : rstripL Y = [] <;> simp [hY]
  rfl

theorem rstripL_append_space (B : List Char) : rstripL (B ++ [' ']) = rstripL B := by
  rw [rstripL_append]
  rw [if_pos (by rw [rstripL_nil_iff]; intro x hx; simp at hx; rw [hx]; exact pySpace_space)]

theorem length_lstripL_le (X : List Char) : (lstripL X).length ≤ X.length :=
  (List.dropWhile_suffix pySpace).length_le

theorem length_rstripL_le (X : List Char) : (rstripL X).length ≤ X.length := by
  unfold rstripL
  calc ((X.reverse.dropWhile pySpace).reverse).length
      = (X.reverse.dropWhile pySpace).length := by rw [List.length_reverse]
    _ ≤ X.reverse.length := (List.dropWhile_suffix pySpace).length_le
    _ = X.length := by rw [List.length_reverse]

theorem lstripL_fix_head (c : Char) (t : List Char)
    (h : lstripL (c :: t) = c :: t) : pySpace c = false := by
  by_cases hc : pySpace c = true
  · unfold lstripL at h
    rw [List.dropWhile_cons_of_pos hc] at h
    have hlen := congrArg List.length h
    have := (List.dropWhile_suffix (l := t) pySpace).length_le
    unfold lstripL at this
    simp at hlen
    omega
  · exact Bool.eq_false_iff.mpr hc

theorem stripped_fix (A : List Char) (h : stripL A = A) :
    lstripL A = A ∧ rstripL A = A := by
  have h1 : (lstripL A).length ≤ A.length := length_lstripL_le A
  have h2 : (stripL A).length ≤ (lstripL A).length := length_rstripL_le (lstripL A)
  rw [h] at h2
  have hlen : (lstripL A).length = A.length := le_antisymm h1 h2
  have hfix : lstripL A = A :=
    (List.dropWhile_suffix pySpace).eq_of_length hlen
  refine ⟨hfix, ?_⟩
  have : stripL A = rstripL (lstripL A) := rfl
  rw [hfix] at this
  rw [← this, h]

theorem lstripL_append_left (A X : List Char) (hA : lstripL A = A) (hne : A ≠ []) :
    lstripL (A ++ X) = A ++ X := by
  rw [lstripL_append, if_neg (by rw [hA]; exact hne), hA]

theorem length_rstripL_lstripL_le (Y : List Char) :
    (rstripL (lstripL Y)).length ≤ (rstripL Y).length := by
  have hsplit : Y = Y.takeWhile pySpace ++ lstripL Y :=
    (List.takeWhile_append_dropWhile pySpace Y).symm
  by_cases h : rstripL (lstripL Y) = []
  · rw [h]; simp
  · conv_rhs => rw [hsplit]
    rw [rstripL_append, if_neg h]
    simp

/-- Auxiliary for the title field: an empty first field against a
non-empty one yields different combined texts. -/
theorem combinedL_title_aux (A' B C : List Char)
    (hA' : stripL A' = A') (hne' : A' ≠ []) :
    combinedL [] B C ≠ combinedL A' B C := by
  intro heq
  have hA'fix := stripped_fix A' hA'
  set Y : List Char := B ++ ' ' :: C with hY
  set X : List Char := ' ' :: Y with hX
  have h1 : combinedL [] B C = rstripL (lstripL Y) := by
    have e1 : combinedL [] B C =
        rstripL (lstripL ([] ++ (' ' :: (B ++ ' ' :: C)))) := rfl
    rw [← hY, ← hX] at e1
    rw [e1, List.nil_append, hX, lstripL_cons_space]
  have h2 : combinedL A' B C = rstripL (A' ++ X) := by
    have e1 : combinedL A' B C =
        rstripL (lstripL (A' ++ (' ' :: (B ++ ' ' :: C)))) := rfl
    rw [← hY, ← hX] at e1
    rw [e1, lstripL_append_left A' X hA'fix.1 hne']
  by_cases hrx : rstripL X = []
  · have hallX : ∀ x ∈ X, pySpace x = true := (rstripL_nil_iff X).mp hrx
    have hlY : lstripL Y = [] := by
      rw [show lstripL Y = Y.dropWhile pySpace from rfl, List.dropWhile_eq_nil_iff]
      intro x hx
      exact hallX x (by rw [hX]; exact List.mem_cons_of_mem _ hx)
    rw [h1, hlY] at heq
    rw [h2, rstripL_append, if_pos hrx, hA'fix.2] at heq
    exact hne' (by simpa [rstripL] using heq.symm)
  · have hrXform : rstripL X = ' ' :: rstripL Y := by
      rw [hX, rstripL_cons_space]
      rw [if_neg ?hy]
      case hy =>
        intro hy0
        apply hrx
        rw [hX, rstripL_cons_space, if_pos hy0]
    have hlen := congrArg List.length heq
    rw [h1, h2, rstripL_append, if_neg hrx] at hlen
    simp only [List.length_append, hrXform, List.length_cons] at hlen
    have hle := length_rstripL_lstripL_le Y
    have hA'len : 1 ≤ A'.length := by
      cases A' with
      | nil => exact absurd rfl hne'
      | cons a t => simp
    omega

/-- Changing the title field changes the combined fingerprint text. -/
theorem combinedL_inj_title (A A' B C : List Char)
    (hA : stripL A = A) (hA' : stripL A' = A') (hne : A ≠ A') :
    combinedL A B C ≠ combinedL A' B C := by
  by_cases hAe : A = []
  · subst hAe
    exact combinedL_title_aux A' B C hA' (fun h => hne h.symm)
  · by_cases hA'e : A' = []
    · subst hA'e
      exact (combinedL_title_aux A B C hA hAe).symm
    · intro heq
      have hAfix := stripped_fix A hA
      have hA'fix := stripped_fix A' hA'
      set X : List Char := ' ' :: (B ++ ' ' :: C) with hX
      have h1 : combinedL A B C = rstripL (A ++ X) := by
        have e1 : combinedL A B C =
            rstripL (lstripL (A ++ (' ' :: (B ++ ' ' :: C)))) := rfl
        rw [← hX] at e1
        rw [e1, lstripL_append_left A X hAfix.1 hAe]
      have h2 : combinedL A' B C = rstripL (A' ++ X) := by
        have e1 : combinedL A' B C =
            rstripL (lstripL (A' ++ (' ' :: (B ++ ' ' :: C)))) := rfl
        rw [← hX] at e1
        rw [e1, lstripL_append_left A' X hA'fix.1 hA'e]
      rw [h1, h2, rstripL_append, rstripL_append] at heq
      by_cases hrx : rstripL X = []
      · rw [if_pos hrx, if_pos hrx, hAfix.2, hA'fix.2] at heq
        exact hne heq
      · rw [if_neg hrx, if_neg hrx] at heq
        exact hne (List.append_cancel_right heq)

/-- The combined text re-associated around the snippet field. -/
theorem combinedL_assoc (A B C : List Char) :
    combinedL A B C = rstripL (lstripL ((A ++ ' ' :: B) ++ (' ' :: C))) := by
  show rstripL (lstripL (A ++ (' ' :: (B ++ (' ' :: C))))) = _
  have : A ++ (' ' :: (B ++ (' ' :: C))) = (A ++ ' ' :: B) ++ (' ' :: C) := by
    simp
  rw [this]

/-- Auxiliary for the snippet field: empty against non-empty. -/
theorem combinedL_snippet_aux (A B C' : List Char)
    (hC' : stripL C' = C') (hne' : C' ≠ []) :
    combinedL A B [] ≠ combinedL A B C' := by
  intro heq
  have hC'fix := stripped_fix C' hC'
  rw [combinedL_assoc, combinedL_assoc] at heq
  set W : List Char := A ++ ' ' :: B with hW
  by_cases hW0 : lstripL W = []
  · rw [lstripL_append W (' ' :: ([] : List Char)), if_pos hW0, lstripL_cons_space,
        lstripL_append W (' ' :: C'), if_pos hW0, lstripL_cons_space] at heq
    rw [hC'fix.1] at heq
    have hl : lstripL ([] : List Char) = [] := rfl
    rw [hl] at heq
    have : rstripL ([] : List Char) = [] := rfl
    rw [this, hC'fix.2] at heq
    exact hne' heq.symm
  · rw [lstripL_append W (' ' :: ([] : List Char)), if_neg hW0,
        lstripL_append W (' ' :: C'), if_neg hW0] at heq
    have h1 : rstripL (lstripL W ++ (' ' :: ([] : List Char))) = rstripL (lstripL W) := by
      show rstripL (lstripL W ++ [' ']) = _
      exact rstripL_append_space (lstripL W)
    have h2 : rstripL (lstripL W ++ (' ' :: C')) = lstripL W ++ ' ' :: C' := by
      rw [rstripL_append, rstripL_cons_space, hC'fix.2, if_neg hne', if_neg (by simp)]
    rw [h1, h2] at heq
    have hlen := congrArg List.length heq
    have hle := length_rstripL_le (lstripL W)
    simp only [List.length_append, List.length_cons] at hlen
    omega

/-- Changing the snippet field changes the combined fingerprint text. -/
theorem combinedL_inj_snippet (A B C C' : List Char)
    (hC : stripL C = C) (hC' : stripL C' = C') (hne : C ≠ C') :
    combinedL A B C ≠ combinedL A B C' := by
  by_cases hCe : C = []
  · subst hCe
    exact combinedL_snippet_aux A B C' hC' (fun h => hne h.symm)
  · by_cases hC'e : C' = []
    · subst hC'e
      exact (combinedL_snippet_aux A B C hC hCe).symm
    · intro heq
      have hCfix := stripped_fix C hC
      have hC'fix := stripped_fix C' hC'
      rw [combinedL_assoc, combinedL_assoc] at heq
      set W : List Char := A ++ ' ' :: B with hW
      by_cases hW0 : lstripL W = []
      · rw [lstripL_append W (' ' :: C), if_pos hW0, lstripL_cons_space, hCfix.1,
            lstripL_append W (' ' :: C'), if_pos hW0, lstripL_cons_space, hC'fix.1] at heq
        rw [hCfix.2, hC'fix.2] at heq
        exact hne heq
      · rw [lstripL_append W (' ' :: C), if_neg hW0,
            lstripL_append W (' ' :: C'), if_neg hW0] at heq
        have h1 : rstripL (lstripL W ++ (' ' :: C)) = lstripL W ++ ' ' :: C := by
          rw [rstripL_append, rstripL_cons_space, hCfix.2, if_neg hCe, if_neg (by simp)]
        have h2 : rstripL (lstripL W ++ (' ' :: C')) = lstripL W ++ ' ' :: C' := by
          rw [rstripL_append, rstripL_cons_space, hC'fix.2, if_neg hC'e, if_neg (by simp)]
        rw [h1, h2] at heq
        have := List.append_cancel_left heq
        simp only [List.cons.injEq, true_and] at this
        exact hne this

/-- Normal form of rstrip over a stripped middle field joined to a
stripped right field. -/
theorem rstripL_mid (B C : List Char) (hB : stripL B = B) (hC : stripL C = C) :
    rstripL (B ++ ' ' :: C) = if C = [] then B else B ++ ' ' :: C := by
  by_cases hCe : C = []
  · subst hCe
    rw [if_pos rfl]
    rw [show (B ++ ' ' :: ([] : List Char)) = B ++ [' '] from rfl,
        rstripL_append_space B, (stripped_fix B hB).2]
  · rw [if_neg hCe]
    rw [rstripL_append B (' ' :: C), rstripL_cons_space C, (stripped_fix C hC).2,
        if_neg hCe, if_neg (by simp)]

/-- Normal form of the combined text when the title lstrips to nothing. -/
theorem combinedL_left_empty (A B C : List Char) (hA0 : lstripL A = [])
    (hB : stripL B = B) (hC : stripL C = C) :
    combinedL A B C = if B = [] then C else rstripL (B ++ ' ' :: C) := by
  have hBfix := stripped_fix B hB
  have hCfix := stripped_fix C hC
  have h0 : combinedL A B C = rstripL (lstripL (A ++ (' ' :: (B ++ ' ' :: C)))) := rfl
  rw [lstripL_append A (' ' :: (B ++ ' ' :: C)), if_pos hA0, lstripL_cons_space] at h0
  rw [h0]
  by_cases hBe : B = []
  · rw [if_pos hBe, hBe, List.nil_append, lstripL_cons_space, hCfix.1, hCfix.2]
  · rw [if_neg hBe, lstripL_append_left B (' ' :: C) hBfix.1 hBe]

/-- Normal form of rstrip over the separator-joined middle and right
fields. -/
theorem rstripL_sep (B C : List Char) (hB : stripL B = B) (hC : stripL C = C) :
    rstripL (' ' :: (B ++ ' ' :: C)) =
      if C = [] then (if B = [] then [] else ' ' :: B)
      else ' ' :: (B ++ ' ' :: C) := by
  by_cases hCe : C = []
  · subst hCe
    rw [if_pos rfl]
    rw [show (B ++ ' ' :: ([] : List Char)) = B ++ [' '] from rfl]
    rw [rstripL_cons_space (B ++ [' ']), rstripL_append_space B, (stripped_fix B hB).2]
  · rw [if_neg hCe]
    have e : (' ' :: (B ++ ' ' :: C)) = (' ' :: B) ++ (' ' :: C) := by simp
    rw [e, rstripL_append (' ' :: B) (' ' :: C), rstripL_cons_space C,
        (stripped_fix C hC).2, if_neg hCe, if_neg (by simp)]

/-- Auxiliary for the meta field: empty against non-empty. -/
theorem combinedL_meta_aux (A B' C : List Char)
    (hB' : stripL B' = B') (hC : stripL C = C) (hne' : B' ≠ []) :
    combinedL A [] C ≠ combinedL A B' C := by
  intro heq
  have hB'fix := stripped_fix B' hB'
  have hCfix := stripped_fix C hC
  have hBnil : stripL ([] : List Char) = [] := rfl
  by_cases hA0 : lstripL A = []
  · rw [combinedL_left_empty A [] C hA0 hBnil hC, if_pos rfl,
        combinedL_left_empty A B' C hA0 hB' hC, if_neg hne',
        rstripL_mid B' C hB' hC] at heq
    by_cases hCe : C = []
    · rw [if_pos hCe, hCe] at heq
      exact hne' heq.symm
    · rw [if_neg hCe] at heq
      have hlen := congrArg List.length heq
      simp only [List.length_append, List.length_cons] at hlen
      omega
  · have h1 : combinedL A [] C =
        rstripL (lstripL A ++ (' ' :: (([] : List Char) ++ ' ' :: C))) := by
      have e1 : combinedL A [] C =
          rstripL (lstripL (A ++ (' ' :: (([] : List Char) ++ ' ' :: C)))) := rfl
      rw [e1, lstripL_append A (' ' :: (([] : List Char) ++ ' ' :: C)), if_neg hA0]
    have h2 : combinedL A B' C =
        rstripL (lstripL A ++ (' ' :: (B' ++ ' ' :: C))) := by
      have e1 : combinedL A B' C =
          rstripL (lstripL (A ++ (' ' :: (B' ++ ' ' :: C)))) := rfl
      rw [e1, lstripL_append A (' ' :: (B' ++ ' ' :: C)), if_neg hA0]
    have hs1 := rstripL_sep ([] : List Char) C hBnil hC
    have hs2 := rstripL_sep B' C hB' hC
    rw [h1, h2] at heq
    rw [show (lstripL A ++ (' ' :: (([] : List Char) ++ ' ' :: C))) =
        lstripL A ++ (' ' :: (([] : List Char) ++ ' ' :: C)) from rfl] at heq
    rw [rstripL_append (lstripL A) (' ' :: (([] : List Char) ++ ' ' :: C)),
        rstripL_append (lstripL A) (' ' :: (B' ++ ' ' :: C)), hs1, hs2] at heq
    by_cases hCe : C = []
    · rw [if_pos hCe, if_pos hCe, if_pos rfl, if_neg hne'] at heq
      rw [if_pos rfl, if_neg (by simp)] at heq
      have hlen := congrArg List.length heq
      have hle := length_rstripL_le (lstripL A)
      simp only [List.length_append, List.length_cons] at hlen
      have hB'len : 1 ≤ B'.length := by
        cases B' with
        | nil => exact absurd rfl hne'
        | cons x t => simp
      omega
    · rw [if_neg hCe, if_neg hCe, if_neg (by simp), if_neg (by simp)] at heq
      have := List.append_cancel_left heq
      simp only [List.cons.injEq, true_and] at this
      have h3 : (([] : List Char) ++ ' ' :: C) = B' ++ ' ' :: C := this
      rw [List.nil_append] at h3
      cases B' with
      | nil => exact hne' rfl
      | cons b bt =>
        have hlen := congrArg List.length h3
        simp only [List.length_cons, List.length_append] at hlen
        omega

/-- Changing the meta-description field changes the combined
fingerprint text. -/
theorem combinedL_inj_meta (A B B' C : List Char)
    (hB : stripL B = B) (hB' : stripL B' = B') (hC : stripL C = C) (hne : B ≠ B') :
    combinedL A B C ≠ combinedL A B' C := by
  by_cases hBe : B = []
  · subst hBe
    exact combinedL_meta_aux A B' C hB' hC (fun h => hne h.symm)
  · by_cases hB'e : B' = []
    · subst hB'e
      exact (combinedL_meta_aux A B C hB hC hBe).symm
    · intro heq
      by_cases hA0 : lstripL A = []
      · rw [combinedL_left_empty A B C hA0 hB hC, if_neg hBe,
            combinedL_left_empty A B' C hA0 hB' hC, if_neg hB'e,
            rstripL_mid B C hB hC, rstripL_mid B' C hB' hC] at heq
        by_cases hCe : C = []
        · rw [if_pos hCe, if_pos hCe] at heq
          exact hne heq
        · rw [if_neg hCe, if_neg hCe] at heq
          exact hne (List.append_cancel_right heq)
      · have h1 : combinedL A B C =
            rstripL (lstripL A ++ (' ' :: (B ++ ' ' :: C))) := by
          have e1 : combinedL A B C =
              rstripL (lstripL (A ++ (' ' :: (B ++ ' ' :: C)))) := rfl
          rw [e1, lstripL_append A (' ' :: (B ++ ' ' :: C)), if_neg hA0]
        have h2 : combinedL A B' C =
            rstripL (lstripL A ++ (' ' :: (B' ++ ' ' :: C))) := by
          have e1 : combinedL A B' C =
              rstripL (lstripL (A ++ (' ' :: (B' ++ ' ' :: C)))) := rfl
          rw [e1, lstripL_append A (' ' :: (B' ++ ' ' :: C)), if_neg hA0]
        rw [h1, h2,
            rstripL_append (lstripL A) (' ' :: (B ++ ' ' :: C)),
            rstripL_append (lstripL A) (' ' :: (B' ++ ' ' :: C)),
            rstripL_sep B C hB hC, rstripL_sep B' C hB' hC] at heq
        by_cases hCe : C = []
        · rw [if_pos hCe, if_pos hCe, if_neg hBe, if_neg hB'e,
              if_neg (by simp), if_neg (by simp)] at heq
          have := List.append_cancel_left heq
          simp only [List.cons.injEq, true_and] at this
          exact hne this
        · rw [if_neg hCe, if_neg hCe, if_neg (by simp), if_neg (by simp)] at heq
          have := List.append_cancel_left heq
          simp only [List.cons.injEq, true_and] at this
          exact hne (List.append_cancel_right this)

theorem toNat_ofNat_valid (n : Nat) (h : n < 55296) : (Char.ofNat n).toNat = n := by
  have hv : n.isValidChar := Or.inl h
  simp only [Char.ofNat, dif_pos hv, Char.ofNatAux, Char.toNat]
  simp [UInt32.toNat, UInt32.ofNatCore, BitVec.toNat_ofNat]

/-- A character with a code point of 33 or more is not whitespace. -/
theorem pySpace_eq_false (c : Char) (h1 : 33 ≤ c.toNat) : pySpace c = false := by
  have h' : ¬(c = ' ' ∨ c = '\t' ∨ c = '\n' ∨ c = Char.ofNat 11 ∨
      c = Char.ofNat 12 ∨ c = '\r') := by
    rintro (rfl | rfl | rfl | rfl | rfl | rfl) <;> revert h1 <;> decide
  simpa [pySpace] using h'

/-- ASCII lower-casing preserves whitespace status. -/
theorem pySpace_pyLowerC (c : Char) : pySpace (pyLowerC c) = pySpace c := by
  unfold pyLowerC
  split_ifs with h
  · obtain ⟨h1, h2⟩ := h
    have hc1 : 65 ≤ c.toNat := by
      simp [Char.le_def] at h1
      exact_mod_cast h1
    have hc2 : c.toNat ≤ 90 := by
      simp [Char.le_def] at h2
      exact_mod_cast h2
    have hofnat : (Char.ofNat (c.toNat + 32)).toNat = c.toNat + 32 :=
      toNat_ofNat_valid _ (by omega)
    rw [pySpace_eq_false _ (by omega), pySpace_eq_false _ (by omega)]
  · rfl

theorem dropWhile_idem (p : Char → Bool) (l : List Char) :
    (l.dropWhile p).dropWhile p = l.dropWhile p := by
  cases h : l.dropWhile p with
  | nil => rfl
  | cons c t =>
    rw [List.dropWhile_cons_of_neg]
    rw [dropWhile_head_false p l c t h]
    simp

theorem rstripL_idem (l : List Char) : rstripL (rstripL l) = rstripL l := by
  unfold rstripL
  rw [List.reverse_reverse, dropWhile_idem]

/-- rstrip yields a prefix of its argument. -/
theorem rstripL_prefix (l : List Char) : rstripL l <+: l := by
  unfold rstripL
  have h := List.dropWhile_suffix (l := l.reverse) pySpace
  have := List.reverse_prefix.mpr h
  simpa using this

/-- Stripping is idempotent. -/
theorem stripL_idem (l : List Char) : stripL (stripL l) = stripL l := by
  have h1 : lstripL (stripL l) = stripL l := by
    cases hr : rstripL (lstripL l) with
    | nil =>
      show lstripL (stripL l) = stripL l
      unfold stripL
      rw [hr]
      rfl
    | cons c t =>
      have hpre : rstripL (lstripL l) <+: lstripL l := rstripL_prefix (lstripL l)
      rw [hr] at hpre
      have hYne : lstripL l ≠ [] := by
        intro h0
        rw [h0] at hpre
        simp at hpre
      obtain ⟨d, u, hdu⟩ : ∃ d u, lstripL l = d :: u := by
        cases hY : lstripL l with
        | nil => exact absurd hY hYne
        | cons d u => exact ⟨d, u, rfl⟩
      have hd : pySpace d = false := by
        apply dropWhile_head_false pySpace l
        exact hdu
      have hcd : c = d := by
        rw [hdu] at hpre
        obtain ⟨s, hs⟩ := hpre
        have := congrArg (fun x => x.head?) hs
        simpa using this
      show lstripL (stripL l) = stripL l
      unfold stripL
      rw [hr]
      have hc : pySpace c = false := by rw [hcd]; exact hd
      unfold lstripL
      rw [List.dropWhile_cons_of_neg (by rw [hc]; simp)]
  calc stripL (stripL l) = rstripL (lstripL (stripL l)) := rfl
    _ = rstripL (stripL l) := by rw [h1]
    _ = rstripL (rstripL (lstripL l)) := rfl
    _ = rstripL (lstripL l) := rstripL_idem _
    _ = stripL l := rfl

/-- Stripping commutes with ASCII lower-casing. -/
theorem stripL_map_pyLower (l : List Char) :
    stripL (l.map pyLowerC) = (stripL l).map pyLowerC := by
  have hfun : (pySpace ∘ pyLowerC) = pySpace := funext pySpace_pyLowerC
  have h1 : lstripL (l.map pyLowerC) = (lstripL l).map pyLowerC := by
    unfold lstripL
    rw [List.dropWhile_map, hfun]
  have h2 : ∀ m : List Char, rstripL (m.map pyLowerC) = (rstripL m).map pyLowerC := by
    intro m
    unfold rstripL
    rw [← List.map_reverse, List.dropWhile_map, hfun, List.map_reverse]
  show rstripL (lstripL (l.map pyLowerC)) = _
  rw [h1, h2]
  rfl

/-- The output of norm_text is a stripped character list. -/
theorem normText_stripped (o : Option String) :
    stripL (normText o).data = (normText o).data := by
  cases o with
  | none => rfl
  | some s =>
    have e : normText (some s) = if s = "" then "" else ⟨normTextL s.data⟩ := rfl
    rw [e]
    split_ifs with he
    · rfl
    · show stripL (normTextL s.data) = normTextL s.data
      unfold normTextL
      rw [stripL_map_pyLower, stripL_idem]

/-- The combined fingerprint text of build_content_fingerprint, at the
character-list level. -/
theorem buildContentFingerprint_eq (doc : FetchDoc) :
    buildContentFingerprint doc =
      (if (combinedL (normText doc.http.title).data
            (normText doc.http.metaDescription).data
            (normText doc.http.body_snippet).data).length < 50 then none
       else some ⟨combinedL (normText doc.http.title).data
            (normText doc.http.metaDescription).data
            (normText doc.http.body_snippet).data⟩) := by
  have hdata : (normText doc.http.title ++ " " ++ normText doc.http.metaDescription ++
      " " ++ normText doc.http.body_snippet).data =
      (normText doc.http.title).data ++
        (' ' :: ((normText doc.http.metaDescription).data ++
          (' ' :: (normText doc.http.body_snippet).data))) := by
    simp [String.data_append]
  have hcomb : stripS (normText doc.http.title ++ " " ++ normText doc.http.metaDescription ++
      " " ++ normText doc.http.body_snippet) =
      ⟨combinedL (normText doc.http.title).data
        (normText doc.http.metaDescription).data
        (normText doc.http.body_snippet).data⟩ := by
    unfold stripS combinedL
    rw [hdata]
  have hlen : (stripS (normText doc.http.title ++ " " ++ normText doc.http.metaDescription ++
      " " ++ normText doc.http.body_snippet)).length =
      (combinedL (normText doc.http.title).data
        (normText doc.http.metaDescription).data
        (normText doc.http.body_snippet).data).length := by
    rw [hcomb]
    rfl
  show (if (stripS (normText doc.http.title ++ " " ++ normText doc.http.metaDescription ++
        " " ++ normText doc.http.body_snippet)).length < 50 then none
      else some (stripS (normText doc.http.title ++ " " ++ normText doc.http.metaDescription ++
        " " ++ normText doc.http.body_snippet))) = _
  rw [hcomb]
  rfl

theorem rulePreclass_eq_runChecks (doc : FetchDoc) (e : Bool) :
    rulePreclass doc e = runChecks (enhChecks e) doc := by
  have hrest :
      rulePreclass doc false =
      runChecks [dnsUnreachableCheck, httpUnreachableCheck, blockedCheck,
        notFoundCheck, parkedCheck, contentTypeCheck] doc := by
    show _ = runChecks _ doc
    simp only [runChecks, dnsUnreachableCheck, httpUnreachableCheck, blockedCheck,
      notFoundCheck, parkedCheck, contentTypeCheck]
    unfold rulePreclass
    simp only [Bool.false_eq_true, if_false, ite_false]
    split_ifs <;> rfl
  cases e with
  | false => exact hrest.trans rfl
  | true =>
    have h2 : runChecks (enhChecks true) doc =
        (match classifyByTld (effFqdn doc) with
         | some r => some r
         | none => runChecks [dnsUnreachableCheck, httpUnreachableCheck, blockedCheck,
             notFoundCheck, parkedCheck, contentTypeCheck] doc) := rfl
    rw [h2]
    cases h : classifyByTld (effFqdn doc) with
    | some r =>
      unfold rulePreclass
      simp only [if_true, ite_true, h]
    | none =>
      rw [← hrest]
      unfold rulePreclass
      simp only [if_true, ite_true, if_false, ite_false, h, Bool.false_eq_true]

theorem dbRulePreclass_eq_runChecks (doc : FetchDoc) (e : Bool) :
    dbRulePreclass doc e = runChecks (dbChecks e) doc := by
  have hrest :
      dbRulePreclass doc false =
      runChecks [dbDnsCheck, dbHttpUnreachableCheck, dbBlockedCheck,
        dbNotFoundCheck, dbParkedCheck] doc := by
    show _ = runChecks _ doc
    simp only [runChecks, dbDnsCheck, dbHttpUnreachableCheck, dbBlockedCheck,
      dbNotFoundCheck, dbParkedCheck]
    unfold dbRulePreclass
    simp only [Bool.false_eq_true, if_false, ite_false]
    split_ifs <;> rfl
  cases e with
  | false => exact hrest.trans rfl
  | true =>
    have h2 : runChecks (dbChecks true) doc =
        (match dbClassifyByTld ((doc.fqdn).getD "") with
         | some r => some r
         | none => runChecks [dbDnsCheck, dbHttpUnreachableCheck, dbBlockedCheck,
             dbNotFoundCheck, dbParkedCheck] doc) := rfl
    rw [h2]
    cases h : dbClassifyByTld ((doc.fqdn).getD "") with
    | some r =>
      unfold dbRulePreclass
      simp only [if_true, ite_true, h]
    | none =>
      rw [← hrest]
      unfold dbRulePreclass
      simp only [if_true, ite_true, if_false, ite_false, h, Bool.false_eq_true]

/-- A matching rule short-circuits the fingerprint cache and the LLM in
the worker. -/
theorem processOne_rule_shortCircuit (cfg : ClsCfg) (doc : FetchDoc)
    (cache : String → Option CacheEntry) (reply : LlmOutcome)
    (cat : String) (conf : ℚ) (reason : String)
    (h : rulePreclass doc cfg.enableTldRules = some (cat, conf, reason)) :
    processOne cfg false (.ok doc) cache reply =
      ⟨false, some ⟨"rules", cat, conf, reason⟩, 0, false, none, none⟩ := by
  unfold processOne
  simp only [Bool.false_eq_true, if_false, ite_false, h]

/-- C1 (amended): the file-based rule engine is exactly the first-match
composition of the seven ordered checks (so disabling TLD rules starts
evaluation at the DNS-unreachable check); the database rule engine is
the first-match composition of its six checks (it has no non-HTML
content-type check); a matching rule short-circuits the fingerprint
cache and the inference fallback; and an NXDOMAIN record under .edu is
classified Education when TLD rules are enabled. -/
theorem claim_C1 :
    (∀ (doc : FetchDoc) (e : Bool), rulePreclass doc e = runChecks (enhChecks e) doc) ∧
    (∀ doc : FetchDoc, rulePreclass doc false =
      runChecks [dnsUnreachableCheck, httpUnreachableCheck, blockedCheck,
        notFoundCheck, parkedCheck, contentTypeCheck] doc) ∧
    (∀ (doc : FetchDoc) (e : Bool), dbRulePreclass doc e = runChecks (dbChecks e) doc) ∧
    (rulePreclass eduNxDoc true =
      some ("Education", mkRat 98 100, "rule: TLD .edu → Educational institution TLD")) ∧
    (∀ (cfg : ClsCfg) (doc : FetchDoc) (cache : String → Option CacheEntry)
       (reply : LlmOutcome) (cat : String) (conf : ℚ) (reason : String),
       rulePreclass doc cfg.enableTldRules = some (cat, conf, reason) →
       processOne cfg false (.ok doc) cache reply =
         ⟨false, some ⟨"rules", cat, conf, reason⟩, 0, false, none, none⟩) :=
  ⟨rulePreclass_eq_runChecks,
   fun doc => (rulePreclass_eq_runChecks doc false).trans rfl,
   dbRulePreclass_eq_runChecks,
   by decide,
   processOne_rule_shortCircuit⟩

/-- Counterexample to C1 as stated: the database rule engine has no
step-(7) non-HTML content-type check — a reachable image/png record the
file-based engine classifies NonWebContent by check (7) falls through
every database check and returns no rule match. -/
theorem claim_C1_counterexample :
    rulePreclass imgDoc true =
      some ("NonWebContent", mkRat 90 100, "rule: content-type=image/png") ∧
    dbRulePreclass imgDoc true = none := by
  exact ⟨by decide, by decide⟩

/-- Witness for C1's short-circuit conjunct: a TLD-classified record is
written with method rules, the LLM is not called and no fingerprint is
computed. -/
theorem claim_C1_witness :
    processOne defaultCfg false (.ok eduNxDoc) emptyCache (.notJson "oops") =
      ⟨false, some ⟨"rules", "Education", mkRat 98 100,
        "rule: TLD .edu → Educational institution TLD"⟩, 0, false, none, none⟩ :=
  claim_C1.2.2.2.2 defaultCfg eduNxDoc emptyCache (.notJson "oops")
    "Education" (mkRat 98 100) "rule: TLD .edu → Educational institution TLD" (by decide)

/-- None of the checks after the blocked rule can yield category
Blocked. -/
theorem later_checks_not_blocked (doc : FetchDoc) (conf : ℚ) (reason : String) :
    runChecks [notFoundCheck, parkedCheck, contentTypeCheck] doc ≠
      some ("Blocked", conf, reason) := by
  simp only [runChecks, notFoundCheck, parkedCheck, contentTypeCheck]
  split_ifs <;> simp

/-- The database parked check cannot yield category Blocked. -/
theorem db_later_checks_not_blocked (doc : FetchDoc) (conf : ℚ) (reason : String) :
    runChecks [dbNotFoundCheck, dbParkedCheck] doc ≠ some ("Blocked", conf, reason) := by
  simp only [runChecks, dbNotFoundCheck, dbParkedCheck]
  split_ifs <;> simp

/-- The file-based rule engine's blocked characterization under the
hypothesis that the three earlier checks did not match. -/
theorem enh_blocked_iff (doc : FetchDoc) (e : Bool)
    (htld : e = true → tldCheck doc = none)
    (hdns : dnsUnreachableCheck doc = none)
    (hhttp : httpUnreachableCheck doc = none) :
    (∃ conf reason, rulePreclass doc e = some ("Blocked", conf, reason)) ↔
      (doc.http.blocked = true ∨
        (statusMem doc.http.status blockedStatusCodes = true ∧
         anyPat blockPatterns
           (normText doc.http.title ++ " " ++ normText doc.http.body_snippet) = true)) := by
  have hrc : rulePreclass doc e =
      runChecks [blockedCheck, notFoundCheck, parkedCheck, contentTypeCheck] doc := by
    rw [rulePreclass_eq_runChecks]
    cases e with
    | false =>
      show runChecks ([] ++ _) doc = _
      simp only [List.nil_append, runChecks, hdns, hhttp]
    | true =>
      show runChecks ([tldCheck] ++ _) doc = _
      simp only [List.cons_append, List.nil_append, runChecks, htld rfl, hdns, hhttp]
  rw [hrc]
  constructor
  · rintro ⟨conf, reason, h⟩
    simp only [runChecks] at h
    cases hbc : blockedCheck doc with
    | some r =>
      rw [hbc] at h
      unfold blockedCheck at hbc
      split_ifs at hbc with h1 h2
      · exact Or.inl h1
      · exact Or.inr ⟨h2.1, h2.2⟩
    | none =>
      rw [hbc] at h
      exact absurd h (later_checks_not_blocked doc conf reason)
  · intro hcond
    simp only [runChecks]
    cases hbl : doc.http.blocked with
    | true =>
      unfold blockedCheck
      rw [if_pos hbl]
      exact ⟨mkRat 98 100, "rule: fetcher blocked=true", rfl⟩
    | false =>
      rcases hcond with hcond | hcond
      · exact absurd hcond (by simp [hbl])
      · unfold blockedCheck
        rw [if_neg (by simp [hbl]), if_pos hcond]
        exact ⟨mkRat 95 100,
          "rule: http " ++ statusStr doc.http.status ++ " + block fingerprint", rfl⟩

/-- The database rule engine's blocked characterization: status in
{403, 429} or the flag — no keyword requirement. -/
theorem db_blocked_iff (doc : FetchDoc) (e : Bool)
    (htld : e = true → dbTldCheck doc = none)
    (hdns : dbDnsCheck doc = none)
    (hhttp : dbHttpUnreachableCheck doc = none) :
    (∃ conf reason, dbRulePreclass doc e = some ("Blocked", conf, reason)) ↔
      (blockedStatusCodes.contains ((doc.http.status).getD 0) = true ∨
       doc.http.blocked = true) := by
  have hrc : dbRulePreclass doc e =
      runChecks [dbBlockedCheck, dbNotFoundCheck, dbParkedCheck] doc := by
    rw [dbRulePreclass_eq_runChecks]
    cases e with
    | false =>
      show runChecks ([] ++ _) doc = _
      simp only [List.nil_append, runChecks, hdns, hhttp]
    | true =>
      show runChecks ([dbTldCheck] ++ _) doc = _
      simp only [List.cons_append, List.nil_append, runChecks, htld rfl, hdns, hhttp]
  rw [hrc]
  constructor
  · rintro ⟨conf, reason, h⟩
    simp only [runChecks] at h
    cases hbc : dbBlockedCheck doc with
    | some r =>
      rw [hbc] at h
      unfold dbBlockedCheck at hbc
      split_ifs at hbc with h1
      exact h1
    | none =>
      rw [hbc] at h
      exact absurd h (db_later_checks_not_blocked doc conf reason)
  · intro hcond
    simp only [runChecks]
    unfold dbBlockedCheck
    rw [if_pos hcond]
    exact ⟨mkRat 98 100, "rule: blocked", rfl⟩

/-- The error path of the LLM stage: method error, category Other,
confidence 0, one error-log line, and an output file is written. -/
theorem llmStage_notJson (cfg : ClsCfg) (chash : Option String) (content : String) :
    llmStage cfg chash (.notJson content) =
      ⟨false, some ⟨"error", "Other", 0, "llm_return_not_json"⟩, 1, true, chash, none⟩ := rfl

/-- process_one on a resume run with the output file present: skipped,
no LLM call, nothing written. -/
theorem processOne_skip (cfg : ClsCfg) (load : Except String FetchDoc)
    (cache : String → Option CacheEntry) (reply : LlmOutcome) :
    processOne cfg true load cache reply = ⟨true, none, 0, false, none, none⟩ := rfl

/-- A not-JSON reply on a record that no rule matched and that misses
the cache is recorded as method error with category Other and
confidence 0, appends one error-log line, and writes the output file. -/
theorem processOne_notJson (cfg : ClsCfg) (doc : FetchDoc)
    (cache : String → Option CacheEntry) (content : String)
    (h1 : rulePreclass doc cfg.enableTldRules = none)
    (h2 : ∀ fp, cfg.enableContentHashDedup = true →
      buildContentFingerprint doc = some fp → cache (computeHash fp) = none) :
    processOne cfg false (.ok doc) cache (.notJson content) =
      ⟨false, some ⟨"error", "Other", 0, "llm_return_not_json"⟩, 1, true,
       (if cfg.enableContentHashDedup then
          (buildContentFingerprint doc).map computeHash else none), none⟩ := by
  unfold processOne
  simp only [Bool.false_eq_true, if_false, ite_false, h1]
  unfold cacheStage
  cases hd : cfg.enableContentHashDedup with
  | false => simp [llmStage]
  | true =>
    simp only [if_true, ite_true]
    cases hfp : buildContentFingerprint doc with
    | none => simp [llmStage]
    | some fp =>
      simp only [Option.map_some']
      rw [h2 fp hd hfp]
      simp [llmStage]

/-- A failed LLM call in the database classifier produces no result row. -/
theorem dbProcessOne_failed (cfg : ClsCfg) (domainId : Nat) (fqdn : String)
    (doc : FetchDoc) (cache : String → Option (String × ℚ × String)) (err : String)
    (h1 : dbRulePreclass doc cfg.enableTldRules = none)
    (h2 : cache (dbBuildContentFingerprint doc.http) = none) :
    dbProcessOne cfg domainId fqdn doc cache (.failed err) = none := by
  unfold dbProcessOne
  simp only [h1]
  split_ifs with hgate
  · rw [h2]
  · rfl

/-- batch_insert of a None result inserts nothing and marks nothing
classified. -/
theorem dbBatchInsert_none :
    dbBatchInsert [none] =
      ⟨[], [], []⟩ := rfl

/-- C2 (amended): in the file-based classifier a not-JSON reply is
recorded as method error with category Other and confidence 0, one line
is appended to the error log, the output file is written, and a later
run skips the domain without calling the LLM; in the database
classifier a failed LLM call yields no result row at all, so the domain
is not marked classified. -/
theorem claim_C2 :
    (∀ (cfg : ClsCfg) (chash : Option String) (content : String),
      llmStage cfg chash (.notJson content) =
        ⟨false, some ⟨"error", "Other", 0, "llm_return_not_json"⟩, 1, true, chash, none⟩) ∧
    (∀ (cfg : ClsCfg) (doc : FetchDoc) (cache : String → Option CacheEntry)
       (content : String),
      rulePreclass doc cfg.enableTldRules = none →
      (∀ fp, cfg.enableContentHashDedup = true →
        buildContentFingerprint doc = some fp → cache (computeHash fp) = none) →
      processOne cfg false (.ok doc) cache (.notJson content) =
        ⟨false, some ⟨"error", "Other", 0, "llm_return_not_json"⟩, 1, true,
         (if cfg.enableContentHashDedup then
            (buildContentFingerprint doc).map computeHash else none), none⟩) ∧
    (∀ (cfg : ClsCfg) (load : Except String FetchDoc)
       (cache : String → Option CacheEntry) (reply : LlmOutcome),
      processOne cfg true load cache reply = ⟨true, none, 0, false, none, none⟩) ∧
    (∀ (cfg : ClsCfg) (domainId : Nat) (fqdn : String) (doc : FetchDoc)
       (cache : String → Option (String × ℚ × String)) (err : String),
      dbRulePreclass doc cfg.enableTldRules = none →
      cache (dbBuildContentFingerprint doc.http) = none →
      dbProcessOne cfg domainId fqdn doc cache (.failed err) = none) :=
  ⟨llmStage_notJson, processOne_notJson, processOne_skip, dbProcessOne_failed⟩

/-- Counterexample to C2 as stated: in the database classifier a
malformed reply leaves the domain unclassified — process_one returns
None and batch_insert writes no classification row and sets no
classified flag, so the domain is selected again on the next pass. -/
theorem claim_C2_counterexample :
    dbProcessOne defaultCfg 7 "tiny.sample-site.com" shortContentDoc
      (fun _ => none) (.failed "Expecting value: line 1 column 1 (char 0)") = none ∧
    dbBatchInsert [dbProcessOne defaultCfg 7 "tiny.sample-site.com" shortContentDoc
      (fun _ => none) (.failed "Expecting value: line 1 column 1 (char 0)")] =
      ⟨[], [], []⟩ := by
  exact ⟨by decide, by decide⟩

/-- Witness for C2 in the file-based classifier: a concrete rule-less
short-content record with a not-JSON reply is written as an error
decision with one error-log line, and the resumed run skips it. -/
theorem claim_C2_witness :
    processOne defaultCfg false (.ok shortContentDoc) emptyCache (.notJson "I cannot") =
      ⟨false, some ⟨"error", "Other", 0, "llm_return_not_json"⟩, 1, true, none, none⟩ ∧
    processOne defaultCfg true (.ok shortContentDoc) emptyCache (.notJson "I cannot") =
      ⟨true, none, 0, false, none, none⟩ := by
  constructor
  · have h := claim_C2.2.1 defaultCfg shortContentDoc emptyCache "I cannot"
      (by decide)
      (fun fp _ hfp => by
        rw [show buildContentFingerprint shortContentDoc = none from by decide] at hfp
        exact absurd hfp (by simp))
    exact h.trans (by decide)
  · exact claim_C2.2.2.1 defaultCfg (.ok shortContentDoc) emptyCache (.notJson "I cannot")

/-- fetch_status always takes one of the four values. -/
theorem fetchStatusOf_total (dns : FDns) (http : FHttp) :
    fetchStatusOf dns http = "success" ∨ fetchStatusOf dns http = "dns_failed" ∨
    fetchStatusOf dns http = "http_failed" ∨ fetchStatusOf dns http = "blocked" := by
  unfold fetchStatusOf
  split_ifs <;> simp

/-- The record's fetch_status field is the derived function of the DNS
and HTTP outcomes — never independently set. -/
theorem fetchDomain_status (extract : String → PageFeatures) (domain : String)
    (dns : FDns) (attempts : List HttpAttempt) :
    (fetchDomain extract domain dns attempts).fetch_status =
      fetchStatusOf dns (fetchDomain extract domain dns attempts).http := rfl

/-- NOERROR with no A and no AAAA records: http_fetch returns the empty
result without consuming any attempt, and the derived status is
http_failed. -/
theorem httpFetch_noAddr (extract : String → PageFeatures) (dns : FDns)
    (attempts : List HttpAttempt)
    (hrc : dns.rcode = "NOERROR") (ha : dns.a = []) (haaaa : dns.aaaa = []) :
    httpFetch extract dns attempts = emptyFHttp ∧
    fetchStatusOf dns (httpFetch extract dns attempts) = "http_failed" := by
  have hempty : httpFetch extract dns attempts = emptyFHttp := by
    unfold httpFetch
    rw [if_pos (Or.inr ⟨ha, haaaa⟩)]
  refine ⟨hempty, ?_⟩
  rw [hempty]
  unfold fetchStatusOf
  rw [if_neg (by simp [hrc])]
  rfl

/-- C3 (amended): fetch_status is a total derived function of the DNS
and HTTP outcomes with exactly the four values; NOERROR with no
resolved addresses never enters the HTTP stage (http_fetch returns the
empty result for every attempt environment) but terminates with
fetch_status http_failed, not dns_failed. -/
theorem claim_C3 :
    (∀ (dns : FDns) (http : FHttp),
      fetchStatusOf dns http = "success" ∨ fetchStatusOf dns http = "dns_failed" ∨
      fetchStatusOf dns http = "http_failed" ∨ fetchStatusOf dns http = "blocked") ∧
    (∀ (extract : String → PageFeatures) (domain : String) (dns : FDns)
       (attempts : List HttpAttempt),
      (fetchDomain extract domain dns attempts).fetch_status =
        fetchStatusOf dns (fetchDomain extract domain dns attempts).http) ∧
    (∀ (extract : String → PageFeatures) (dns : FDns) (attempts : List HttpAttempt),
      dns.rcode = "NOERROR" → dns.a = [] → dns.aaaa = [] →
      httpFetch extract dns attempts = emptyFHttp ∧
      (∀ domain, (fetchDomain extract domain dns attempts).fetch_status = "http_failed")) :=
  ⟨fetchStatusOf_total, fetchDomain_status,
   fun extract dns attempts hrc ha haaaa =>
     ⟨(httpFetch_noAddr extract dns attempts hrc ha haaaa).1,
      fun _ => (httpFetch_noAddr extract dns attempts hrc ha haaaa).2⟩⟩

/-- Counterexample to C3 as stated: a NOERROR response with no
addresses yields fetch_status http_failed, not the claimed dns_failed. -/
theorem claim_C3_counterexample :
    (fetchDomain (fun _ => ⟨none, none, ""⟩) "no-addr.sample-site.com"
      ⟨"NOERROR", [], [], [], []⟩ []).fetch_status = "http_failed" ∧
    ("http_failed" : String) ≠ "dns_failed" := by
  exact ⟨by decide, by decide⟩

/-- Witness for C3 at a concrete NOERROR-without-addresses record. -/
theorem claim_C3_witness :
    httpFetch (fun _ => ⟨none, none, ""⟩) ⟨"NOERROR", [], [], [], []⟩
      [.timeout, .timeout] = emptyFHttp ∧
    (fetchDomain (fun _ => ⟨none, none, ""⟩) "no-addr.sample-site.com"
      ⟨"NOERROR", [], [], [], []⟩ [.timeout, .timeout]).fetch_status = "http_failed" := by
  have h := claim_C3.2.2 (fun _ => ⟨none, none, ""⟩) ⟨"NOERROR", [], [], [], []⟩
    [.timeout, .timeout] (by decide) (by decide) (by decide)
  exact ⟨h.1, h.2 "no-addr.sample-site.com"⟩

/-- The file-based fingerprint exists exactly when the combined
normalized text reaches the hard-coded 50 characters. -/
theorem buildContentFingerprint_none_iff (doc : FetchDoc) :
    buildContentFingerprint doc = none ↔
      (stripS (normText doc.http.title ++ " " ++ normText doc.http.metaDescription ++
        " " ++ normText doc.http.body_snippet)).length < 50 := by
  unfold buildContentFingerprint
  show (if (stripS (normText doc.http.title ++ " " ++ normText doc.http.metaDescription ++
      " " ++ normText doc.http.body_snippet)).length < 50 then none
    else some (stripS (normText doc.http.title ++ " " ++ normText doc.http.metaDescription ++
      " " ++ normText doc.http.body_snippet))) = none ↔ _
  split_ifs with h
  · simpa using h
  · simpa using h

/-- Below the threshold the worker computes no hash and runs the LLM
stage with no cache key. -/
theorem processOne_noFingerprint (cfg : ClsCfg) (doc : FetchDoc)
    (cache : String → Option CacheEntry) (reply : LlmOutcome)
    (h1 : rulePreclass doc cfg.enableTldRules = none)
    (h2 : buildContentFingerprint doc = none) :
    processOne cfg false (.ok doc) cache reply = llmStage cfg none reply := by
  unfold processOne
  simp only [Bool.false_eq_true, if_false, ite_false, h1]
  unfold cacheStage
  cases hd : cfg.enableContentHashDedup with
  | false => simp
  | true => simp [h2]

/-- At or above the threshold the SHA-256 of the combined text is the
cache key: a hit reuses the entry, a miss runs the LLM stage carrying
that key. -/
theorem processOne_fingerprint (cfg : ClsCfg) (doc : FetchDoc)
    (cache : String → Option CacheEntry) (reply : LlmOutcome) (fp : String)
    (h1 : rulePreclass doc cfg.enableTldRules = none)
    (h2 : cfg.enableContentHashDedup = true)
    (h3 : buildContentFingerprint doc = some fp) :
    (∀ entry, cache (computeHash fp) = some entry →
      processOne cfg false (.ok doc) cache reply =
        ⟨false, some ⟨"hash_cache", entry.category, entry.confidence,
          "content hash match (similar to " ++
            (entry.exampleFqdn).getD "previous domain" ++ ")"⟩,
         0, false, some (computeHash fp), none⟩) ∧
    (cache (computeHash fp) = none →
      processOne cfg false (.ok doc) cache reply =
        llmStage cfg (some (computeHash fp)) reply) := by
  constructor
  · intro entry hentry
    unfold processOne
    simp only [Bool.false_eq_true, if_false, ite_false, h1]
    unfold cacheStage
    simp only [h2, if_true, ite_true, h3, Option.map_some', hentry]
  · intro hmiss
    unfold processOne
    simp only [Bool.false_eq_true, if_false, ite_false, h1]
    unfold cacheStage
    simp only [h2, if_true, ite_true, h3, Option.map_some', hmiss]

/-- In the database classifier the gate compares the raw body-snippet
length with the configured minimum: below it the LLM row carries no
content hash; at or above it the SHA-256 of the pipe-joined fingerprint
is the cache-lookup key. -/
theorem dbProcessOne_gate (cfg : ClsCfg) (domainId : Nat) (fqdn : String)
    (doc : FetchDoc) (cache : String → Option (String × ℚ × String))
    (p : ParsedReply)
    (h1 : dbRulePreclass doc cfg.enableTldRules = none) :
    (¬ (cfg.enableContentHashDedup = true ∧
        cfg.minContentLengthForHash ≤ ((doc.http.body_snippet).getD "").length) →
      dbProcessOne cfg domainId fqdn doc cache (.ok p) =
        some ⟨domainId, fqdn, "llm", (p.category).getD "Other",
          (p.confidence).getD (mkRat 1 2), (p.rationale).getD "", none⟩) ∧
    ((cfg.enableContentHashDedup = true ∧
        cfg.minContentLengthForHash ≤ ((doc.http.body_snippet).getD "").length) →
      ∀ cat conf exFqdn, cache (dbBuildContentFingerprint doc.http) = some (cat, conf, exFqdn) →
      dbProcessOne cfg domainId fqdn doc cache (.ok p) =
        some ⟨domainId, fqdn, "hash_cache", cat, conf,
          "hash_cache: matched " ++ exFqdn, some (dbBuildContentFingerprint doc.http)⟩) := by
  constructor
  · intro hgate
    unfold dbProcessOne
    simp only [h1]
    rw [if_neg (by exact_mod_cast hgate), if_neg (by exact_mod_cast hgate)]
  · intro hgate cat conf exFqdn hhit
    unfold dbProcessOne
    simp only [h1]
    rw [if_pos (by exact_mod_cast hgate), hhit]

/-- C5 (amended): the file-based classifier gates the fingerprint on the
hard-coded constant 50 applied to the combined normalized text — the
configured minimum is not consulted — and above the gate the SHA-256 of
the combined text is the cache key; the database classifier gates on the
configured minimum applied to the raw body-snippet length alone. -/
theorem claim_C5 :
    (∀ doc : FetchDoc, buildContentFingerprint doc = none ↔
      (stripS (normText doc.http.title ++ " " ++ normText doc.http.metaDescription ++
        " " ++ normText doc.http.body_snippet)).length < 50) ∧
    (∀ (cfg : ClsCfg) (doc : FetchDoc) (cache : String → Option CacheEntry)
       (reply : LlmOutcome),
      rulePreclass doc cfg.enableTldRules = none →
      buildContentFingerprint doc = none →
      processOne cfg false (.ok doc) cache reply = llmStage cfg none reply) ∧
    (∀ (cfg : ClsCfg) (doc : FetchDoc) (cache : String → Option CacheEntry)
       (reply : LlmOutcome) (fp : String),
      rulePreclass doc cfg.enableTldRules = none →
      cfg.enableContentHashDedup = true →
      buildContentFingerprint doc = some fp →
      (cache (computeHash fp) = none →
        processOne cfg false (.ok doc) cache reply =
          llmStage cfg (some (computeHash fp)) reply)) ∧
    (∀ (cfg : ClsCfg) (domainId : Nat) (fqdn : String) (doc : FetchDoc)
       (cache : String → Option (String × ℚ × String)) (p : ParsedReply),
      dbRulePreclass doc cfg.enableTldRules = none →
      ¬ (cfg.enableContentHashDedup = true ∧
          cfg.minContentLengthForHash ≤ ((doc.http.body_snippet).getD "").length) →
      dbProcessOne cfg domainId fqdn doc cache (.ok p) =
        some ⟨domainId, fqdn, "llm", (p.category).getD "Other",
          (p.confidence).getD (mkRat 1 2), (p.rationale).getD "", none⟩) ∧
    (∀ (cfg : ClsCfg) (domainId : Nat) (fqdn : String) (doc : FetchDoc)
       (cache : String → Option (String × ℚ × String)) (p : ParsedReply),
      dbRulePreclass doc cfg.enableTldRules = none →
      (cfg.enableContentHashDedup = true ∧
          cfg.minContentLengthForHash ≤ ((doc.http.body_snippet).getD "").length) →
      ∀ cat conf exFqdn, cache (dbBuildContentFingerprint doc.http) = some (cat, conf, exFqdn) →
      dbProcessOne cfg domainId fqdn doc cache (.ok p) =
        some ⟨domainId, fqdn, "hash_cache", cat, conf,
          "hash_cache: matched " ++ exFqdn, some (dbBuildContentFingerprint doc.http)⟩) :=
  ⟨buildContentFingerprint_none_iff,
   processOne_noFingerprint,
   fun cfg doc cache reply fp h1 h2 h3 =>
     (processOne_fingerprint cfg doc cache reply fp h1 h2 h3).2,
   fun cfg id fq doc cache p h1 hg =>
     (dbProcessOne_gate cfg id fq doc cache p h1).1 hg,
   fun cfg id fq doc cache p h1 hg =>
     (dbProcessOne_gate cfg id fq doc cache p h1).2 hg⟩

/-- Counterexample to C5 as stated: with the configured minimum set to
100, a record whose combined normalized text is 59 characters still gets
a fingerprint and a cache lookup in the file-based classifier — the
threshold is the hard-coded 50, not the configured minimum. -/
theorem claim_C5_counterexample :
    (stripS (normText midContentDoc.http.title ++ " " ++
      normText midContentDoc.http.metaDescription ++ " " ++
      normText midContentDoc.http.body_snippet)).length = 59 ∧
    min100Cfg.minContentLengthForHash = 100 ∧
    (processOne min100Cfg false (.ok midContentDoc) emptyCache
      (.parsed ⟨none, none, none⟩)).cacheKey.isSome = true := by
  exact ⟨by decide, by decide, by decide⟩

/-- Witness for C5: a rule-less record with 5 characters of snippet is
below both gates — the file-based worker reaches the LLM with no cache
key and the database worker's LLM row carries no content hash. -/
theorem claim_C5_witness :
    processOne defaultCfg false (.ok shortContentDoc) emptyCache
      (.parsed ⟨some "Business", some (mkRat 9 10), some "ok"⟩) =
      llmStage defaultCfg none (.parsed ⟨some "Business", some (mkRat 9 10), some "ok"⟩) ∧
    dbProcessOne defaultCfg 3 "tiny.sample-site.com" shortContentDoc (fun _ => none)
      (.ok ⟨some "Business", some (mkRat 9 10), some "ok"⟩) =
      some ⟨3, "tiny.sample-site.com", "llm", "Business", mkRat 9 10, "ok", none⟩ := by
  constructor
  · exact claim_C5.2.1 defaultCfg shortContentDoc emptyCache
      (.parsed ⟨some "Business", some (mkRat 9 10), some "ok"⟩) (by decide) (by decide)
  · have h := claim_C5.2.2.2.1 defaultCfg 3 "tiny.sample-site.com" shortContentDoc
      (fun _ => none) ⟨some "Business", some (mkRat 9 10), some "ok"⟩
      (by decide) (by decide)
    exact h.trans (by decide)

theorem applyOk_status (extract : String → PageFeatures) (res : FHttp) (r : HttpResp) :
    (applyOk extract res r).status = r.statusCode := by
  unfold applyOk; split_ifs <;> rfl

theorem applyOk_final_url (extract : String → PageFeatures) (res : FHttp) (r : HttpResp) :
    (applyOk extract res r).final_url = some r.url := by
  unfold applyOk; split_ifs <;> rfl

theorem applyOk_content_type (extract : String → PageFeatures) (res : FHttp) (r : HttpResp) :
    (applyOk extract res r).content_type = some r.contentType := by
  unfold applyOk; split_ifs <;> rfl

theorem applyOk_headers (extract : String → PageFeatures) (res : FHttp) (r : HttpResp) :
    (applyOk extract res r).headers = r.headers := by
  unfold applyOk; split_ifs <;> rfl

/-- A successful attempt never clears the error field set by an earlier
failed attempt. -/
theorem applyOk_error (extract : String → PageFeatures) (res : FHttp) (r : HttpResp) :
    (applyOk extract res r).error = res.error := by
  unfold applyOk; split_ifs <;> rfl

theorem applyOk_blocked (extract : String → PageFeatures) (res : FHttp) (r : HttpResp) :
    (applyOk extract res r).blocked =
      (if (r.statusCode = 403 ∨ r.statusCode = 429) ∧
          anyPat fetcherBlockKeywords (pyLowerS r.text) = true then true
       else res.blocked) := by
  unfold applyOk; split_ifs <;> rfl

theorem applyOk_title (extract : String → PageFeatures) (res : FHttp) (r : HttpResp)
    (h : strContains r.contentType "text/html" = true) :
    (applyOk extract res r).title = (extract r.text).title := by
  unfold applyOk; split_ifs <;> rfl

theorem applyOk_snippet (extract : String → PageFeatures) (res : FHttp) (r : HttpResp)
    (h : strContains r.contentType "text/html" = true) :
    (applyOk extract res r).body_snippet = some (extract r.text).snippet := by
  unfold applyOk; split_ifs <;> rfl

theorem applyFail_error (fail : HttpAttempt) (etag : String) (res : FHttp)
    (hfail : attemptErrTag fail = some etag) :
    (applyFail res fail).error = some etag := by
  cases fail <;> simp [applyFail, attemptErrTag] at hfail ⊢ <;> exact hfail

theorem applyFail_blocked (fail : HttpAttempt) (res : FHttp) :
    (applyFail res fail).blocked = res.blocked := by
  cases fail <;> rfl

/-- C10: when the HTTPS attempt fails with a transport error and the
HTTP fallback succeeds, the result carries the successful response's
status, final URL, content type and headers (and the extracted features
on HTML), while the error field still holds the tag of the failed HTTPS
attempt; the derived fetch_status ignores the error field and reports
success whenever the status is non-zero and the blocked flag is unset. -/
theorem claim_C10 (extract : String → PageFeatures) (domain : String) (dns : FDns)
    (fail : HttpAttempt) (r : HttpResp) (etag : String)
    (hdns : dns.rcode = "NOERROR") (haddr : dns.a ≠ [])
    (hfail : attemptErrTag fail = some etag) :
    (httpFetch extract dns [fail, .ok r]).status = r.statusCode ∧
    (httpFetch extract dns [fail, .ok r]).final_url = some r.url ∧
    (httpFetch extract dns [fail, .ok r]).content_type = some r.contentType ∧
    (httpFetch extract dns [fail, .ok r]).headers = r.headers ∧
    (httpFetch extract dns [fail, .ok r]).error = some etag ∧
    (strContains r.contentType "text/html" = true →
      (httpFetch extract dns [fail, .ok r]).title = (extract r.text).title ∧
      (httpFetch extract dns [fail, .ok r]).body_snippet = some (extract r.text).snippet) ∧
    (¬ ((r.statusCode = 403 ∨ r.statusCode = 429) ∧
        anyPat fetcherBlockKeywords (pyLowerS r.text) = true) →
      (httpFetch extract dns [fail, .ok r]).blocked = false ∧
      (r.statusCode ≠ 0 →
        (fetchDomain extract domain dns [fail, .ok r]).fetch_status = "success")) := by
  have hguard : httpFetch extract dns [fail, .ok r] =
      applyOk extract (applyFail emptyFHttp fail) r := by
    unfold httpFetch
    rw [if_neg (by simp [hdns, haddr])]
    cases fail <;> simp [runAttempts, attemptErrTag] at hfail ⊢
  refine ⟨by rw [hguard, applyOk_status],
          by rw [hguard, applyOk_final_url],
          by rw [hguard, applyOk_content_type],
          by rw [hguard, applyOk_headers],
          by rw [hguard, applyOk_error]; exact applyFail_error fail etag _ hfail,
          fun hhtml => ⟨by rw [hguard, applyOk_title _ _ _ hhtml],
                        by rw [hguard, applyOk_snippet _ _ _ hhtml]⟩,
          fun hnb => ?_⟩
  have hbl : (httpFetch extract dns [fail, .ok r]).blocked = false := by
    rw [hguard, applyOk_blocked, if_neg hnb, applyFail_blocked]
    rfl
  refine ⟨hbl, fun hs0 => ?_⟩
  show fetchStatusOf dns (httpFetch extract dns [fail, .ok r]) = "success"
  unfold fetchStatusOf
  rw [if_neg (by simp [hdns])]
  rw [if_neg (by rw [hguard, applyOk_status]; exact hs0)]
  rw [if_neg (by rw [hbl]; simp)]

/-- Every domain of a batch yields exactly one entry, each a function of
its own outcome alone: an exception in one domain cannot abort or alter
another domain's processing. -/
theorem wBatch_isolated (l1 l2 : List DomOutcome) (d msg : String) :
    wBatchResults (l1 ++ [.exn d msg] ++ l2) =
      wBatchResults l1 ++ [none] ++ wBatchResults l2 ∧
    wCompleted (l1 ++ [.exn d msg] ++ l2) = l1.length + 1 + l2.length := by
  constructor
  · simp [wBatchResults, wProcessOne]
  · simp [wCompleted]
    omega

/-- Each batch entry is the image of its own outcome. -/
theorem wBatch_pointwise (outs : List DomOutcome) (i : Nat) (h : i < outs.length) :
    (wBatchResults outs).get ⟨i, by simpa [wBatchResults] using h⟩ =
      wProcessOne (outs.get ⟨i, h⟩) := by
  simp [wBatchResults]

/-- C8 (amended): a per-domain exception is caught at the worker
boundary — the fetcher batch still processes every other domain and
counts the failed one as completed, and the file-based classifier
appends one error-log line — but the failed domain is dropped without a
recorded result: the fetcher's insert receives None for it and the
classifier writes no output file. -/
theorem claim_C8 :
    (∀ (l1 l2 : List DomOutcome) (d msg : String),
      wBatchResults (l1 ++ [.exn d msg] ++ l2) =
        wBatchResults l1 ++ [none] ++ wBatchResults l2 ∧
      wCompleted (l1 ++ [.exn d msg] ++ l2) = l1.length + 1 + l2.length) ∧
    (∀ (outs : List DomOutcome) (i : Nat) (h : i < outs.length),
      (wBatchResults outs).get ⟨i, by simpa [wBatchResults] using h⟩ =
        wProcessOne (outs.get ⟨i, h⟩)) ∧
    (∀ (d msg : String), wProcessOne (.exn d msg) = none) ∧
    (∀ (cfg : ClsCfg) (msg : String) (cache : String → Option CacheEntry)
       (reply : LlmOutcome),
      processOne cfg false (.error msg) cache reply =
        ⟨false, none, 1, false, none, none⟩) :=
  ⟨wBatch_isolated, wBatch_pointwise, fun _ _ => rfl, fun _ _ _ _ => rfl⟩

/-- An acquisition completes no earlier than its arrival, and no earlier
than one delay after the stored last query time. -/
theorem rlAcquire_ge (delay last now : ℚ) (h : 0 < delay) :
    now ≤ (rlAcquire delay last now).1 ∧
    last + delay ≤ (rlAcquire delay last now).1 ∧
    (rlAcquire delay last now).2 = (rlAcquire delay last now).1 := by
  unfold rlAcquire
  rw [if_pos h]
  split_ifs with hw
  · exact ⟨by show now ≤ last + delay; linarith, le_refl _, rfl⟩
  · exact ⟨le_refl _, by show last + delay ≤ now; linarith, rfl⟩

/-- The first completion of a run is at least one delay after the
stored last query time. -/
theorem rlRun_head_ge (delay last : ℚ) (h : 0 < delay) (as : List ℚ) :
    ∀ c ∈ (rlRun delay last as).head?, last + delay ≤ c := by
  cases as with
  | nil => simp [rlRun]
  | cons a rest =>
    intro c hc
    have : (rlRun delay last (a :: rest)).head? = some (rlAcquire delay last a).1 := rfl
    rw [this] at hc
    simp only [Option.mem_def, Option.some.injEq] at hc
    rw [← hc]
    exact (rlAcquire_ge delay last a h).2.1

/-- Consecutive completions are at least one delay apart. -/
theorem rlRun_chain (delay : ℚ) (h : 0 < delay) :
    ∀ (as : List ℚ) (last : ℚ),
      List.Chain' (fun x y => x + delay ≤ y) (rlRun delay last as) := by
  intro as
  induction as with
  | nil => intro last; simp [rlRun]
  | cons a rest ih =>
    intro last
    have hrw : rlRun delay last (a :: rest) =
        (rlAcquire delay last a).1 :: rlRun delay (rlAcquire delay last a).1 rest := by
      show (rlAcquire delay last a).1 :: rlRun delay (rlAcquire delay last a).2 rest = _
      rw [(rlAcquire_ge delay last a h).2.2]
    rw [hrw, List.chain'_cons']
    exact ⟨rlRun_head_ge delay (rlAcquire delay last a).1 h rest, ih _⟩

/-- A chain with additive gaps bounds the last element from below. -/
theorem chain_gap_bound (delay : ℚ) :
    ∀ (l : List ℚ) (hne : l ≠ []),
      List.Chain' (fun x y => x + delay ≤ y) l →
      l.head hne + (l.length - 1 : ℕ) * delay ≤ l.getLast hne := by
  intro l
  induction l with
  | nil => intro hne; exact absurd rfl hne
  | cons a rest ih =>
    intro hne hchain
    cases rest with
    | nil => simp
    | cons b rest2 =>
      have hab : a + delay ≤ b := (List.chain'_cons.mp hchain).1
      have htail := ih (by simp) (List.chain'_cons.mp hchain).2
      have hlast : (a :: b :: rest2).getLast hne = (b :: rest2).getLast (by simp) := by
        simp [List.getLast_cons]
      have hha : (a :: b :: rest2).head hne = a := rfl
      have hhead : (b :: rest2).head (by simp) = b := rfl
      rw [hlast, hha]
      rw [hhead] at htail
      have hlen : ((a :: b :: rest2).length - 1 : ℕ) = ((b :: rest2).length - 1 : ℕ) + 1 := by
        simp
      rw [hlen]
      push_cast
      nlinarith [htail, hab]

/-- C9 (amended): the resolver-pool limiter enforces a fixed minimum
gap: with delay d > 0 every two consecutive acquisitions complete at
least d apart, so a burst of K acquisitions spans at least (K-1)*d,
which at rate R = 1/d is at least the claimed floor-form bound
((K-R)+(R-1))/R; but no burst allowance exists — the counterexample
shows a burst of 2 at rate 2 already waits. -/
theorem claim_C9 :
    (∀ (delay last : ℚ) (as : List ℚ), 0 < delay →
      List.Chain' (fun x y => x + delay ≤ y) (rlRun delay last as)) ∧
    (∀ (delay last : ℚ) (as : List ℚ) (hne : rlRun delay last as ≠ []), 0 < delay →
      (rlRun delay last as).head hne +
        ((rlRun delay last as).length - 1 : ℕ) * delay ≤
        (rlRun delay last as).getLast hne) ∧
    (∀ R K : ℕ, 1 ≤ R → R < K →
      ((((K - R) + (R - 1)) / R : ℕ) : ℚ) ≤ ((K : ℚ) - 1) * (1 / (R : ℚ))) := by
  refine ⟨fun delay last as h => rlRun_chain delay h as last,
          fun delay last as hne h => chain_gap_bound delay _ hne (rlRun_chain delay h as last),
          fun R K hR hK => ?_⟩
  have h1 : (K - R) + (R - 1) = K - 1 := by omega
  rw [h1]
  have h2 : (((K - 1) / R : ℕ) : ℚ) ≤ ((K - 1 : ℕ) : ℚ) / (R : ℚ) := Nat.cast_div_le
  refine h2.trans (le_of_eq ?_)
  have h3 : ((K - 1 : ℕ) : ℚ) = (K : ℚ) - 1 := by
    have : (1 : ℕ) ≤ K := by omega
    push_cast [Nat.cast_sub this]
    ring
  rw [h3]
  ring

/-- Counterexample to C9 as stated: there is no token bucket — at rate
R = 2 per second (delay one half), the second acquisition of a burst of
two, arriving the instant the first completes, sleeps half a second
instead of proceeding within the bucket capacity. -/
theorem claim_C9_counterexample :
    rlRun (mkRat 1 2) 0 [10, 10] = [10, mkRat 21 2] ∧
    rlWait (mkRat 1 2) 10 10 = mkRat 1 2 ∧
    ¬ rlWait (mkRat 1 2) 10 10 = 0 := by
  refine ⟨?_, ?_, ?_⟩ <;> norm_num [rlRun, rlAcquire, rlWait]

/-- Witness for C9: the two-acquisition burst at rate 2 spans at least
half a second, and the floor bound holds at R = 2, K = 5. -/
theorem claim_C9_witness :
    List.Chain' (fun x y => x + mkRat 1 2 ≤ y) (rlRun (mkRat 1 2) 0 [10, 10]) ∧
    ((rlRun (mkRat 1 2) 0 [10, 10]).head (by simp [rlRun]) +
      ((rlRun (mkRat 1 2) 0 [10, 10]).length - 1 : ℕ) * mkRat 1 2 ≤
      (rlRun (mkRat 1 2) 0 [10, 10]).getLast (by simp [rlRun])) ∧
    ((((5 - 2) + (2 - 1)) / 2 : ℕ) : ℚ) ≤ ((5 : ℚ) - 1) * (1 / (2 : ℚ)) :=
  ⟨claim_C9.1 (mkRat 1 2) 0 [10, 10] (by norm_num),
   claim_C9.2.1 (mkRat 1 2) 0 [10, 10] (by simp [rlRun]) (by norm_num),
   claim_C9.2.2 2 5 (by norm_num) (by norm_num)⟩

/-- C4: TLD classification matches the domain's suffix against the TLD
table preferring the longest matching suffix; classify_by_tld resolves
agency.gov.uk to Government via .gov.uk and harvard.edu to Education
with confidence 0.98, in both classifier variants. -/
theorem claim_C4 :
    (∀ fqdn t : String, extractTld fqdn = some t →
      (tldLookup tldCategoryMap t).isSome = true ∧
      suffixL t.data (rstripDots (fqdn.data.map pyLowerC)) = true ∧
      ∀ t' : String, (tldLookup tldCategoryMap t').isSome = true →
        suffixL t'.data (rstripDots (fqdn.data.map pyLowerC)) = true →
        t'.length ≤ t.length) ∧
    (∀ fqdn : String, extractTld fqdn = none →
      ∀ t' : String, (tldLookup tldCategoryMap t').isSome = true →
        suffixL t'.data (rstripDots (fqdn.data.map pyLowerC)) = false) ∧
    classifyByTld "agency.gov.uk" =
      some ("Government", mkRat 99 100, "rule: TLD .gov.uk → Government TLD") ∧
    classifyByTld "harvard.edu" =
      some ("Education", mkRat 98 100, "rule: TLD .edu → Educational institution TLD") ∧
    dbClassifyByTld "agency.gov.uk" =
      some ("Government", mkRat 99 100, "rule: TLD .gov.uk → UK Government TLD") ∧
    dbClassifyByTld "harvard.edu" =
      some ("Education", mkRat 98 100, "rule: TLD .edu → Educational institution TLD") :=
  ⟨extractTld_some_spec, extractTld_none_spec, by decide, by decide, by decide, by decide⟩

/-- Witness for C4 at harvard.edu: the matched suffix .edu is in the
table, is a suffix, and is longest among all matching table suffixes. -/
theorem claim_C4_witness :
    (tldLookup tldCategoryMap ".edu").isSome = true ∧
    suffixL (".edu" : String).data
      (rstripDots (("harvard.edu" : String).data.map pyLowerC)) = true ∧
    ∀ t' : String, (tldLookup tldCategoryMap t').isSome = true →
      suffixL t'.data (rstripDots (("harvard.edu" : String).data.map pyLowerC)) = true →
      t'.length ≤ (".edu" : String).length :=
  claim_C4.1 "harvard.edu" ".edu" (by decide)

/-- C6 (amended): the fingerprint hash depends only on the normalized
(title, meta-description, snippet) triple — two records with byte-identical
normalized triples get an identical hash regardless of fqdn — and, whenever
the first record actually has a fingerprint (combined length at least 50),
changing exactly one of the three normalized fields changes the fingerprint
string handed to SHA-256. -/
theorem claim_C6 :
    (∀ d1 d2 : FetchDoc,
        normText d1.http.title = normText d2.http.title →
        normText d1.http.metaDescription = normText d2.http.metaDescription →
        normText d1.http.body_snippet = normText d2.http.body_snippet →
        (buildContentFingerprint d1).map computeHash
          = (buildContentFingerprint d2).map computeHash) ∧
    (∀ d1 d2 : FetchDoc,
        normText d1.http.title ≠ normText d2.http.title →
        normText d1.http.metaDescription = normText d2.http.metaDescription →
        normText d1.http.body_snippet = normText d2.http.body_snippet →
        (buildContentFingerprint d1).isSome = true →
        buildContentFingerprint d1 ≠ buildContentFingerprint d2) ∧
    (∀ d1 d2 : FetchDoc,
        normText d1.http.title = normText d2.http.title →
        normText d1.http.metaDescription ≠ normText d2.http.metaDescription →
        normText d1.http.body_snippet = normText d2.http.body_snippet →
        (buildContentFingerprint d1).isSome = true →
        buildContentFingerprint d1 ≠ buildContentFingerprint d2) ∧
    (∀ d1 d2 : FetchDoc,
        normText d1.http.title = normText d2.http.title →
        normText d1.http.metaDescription = normText d2.http.metaDescription →
        normText d1.http.body_snippet ≠ normText d2.http.body_snippet →
        (buildContentFingerprint d1).isSome = true →
        buildContentFingerprint d1 ≠ buildContentFingerprint d2) := by
  refine ⟨?_, ?_, ?_, ?_⟩
  · intro d1 d2 ht hm hs
    rw [buildContentFingerprint_eq d1, buildContentFingerprint_eq d2, ht, hm, hs]
  · intro d1 d2 hne hm hs hsome heq
    rw [buildContentFingerprint_eq d1, hm, hs] at hsome heq
    rw [buildContentFingerprint_eq d2] at heq
    by_cases h1 : (combinedL (normText d1.http.title).data
        (normText d2.http.metaDescription).data
        (normText d2.http.body_snippet).data).length < 50
    · rw [if_pos h1] at hsome; simp at hsome
    · rw [if_neg h1] at heq
      by_cases h2 : (combinedL (normText d2.http.title).data
          (normText d2.http.metaDescription).data
          (normText d2.http.body_snippet).data).length < 50
      · rw [if_pos h2] at heq; simp at heq
      · rw [if_neg h2] at heq
        have hdata : combinedL (normText d1.http.title).data
            (normText d2.http.metaDescription).data
            (normText d2.http.body_snippet).data
            = combinedL (normText d2.http.title).data
                (normText d2.http.metaDescription).data
                (normText d2.http.body_snippet).data :=
          congrArg String.data (Option.some.inj heq)
        exact combinedL_inj_title _ _ _ _ (normText_stripped _) (normText_stripped _)
          (fun hd => hne (congrArg String.mk hd)) hdata
  · intro d1 d2 ht hne hs hsome heq
    rw [buildContentFingerprint_eq d1, ht, hs] at hsome heq
    rw [buildContentFingerprint_eq d2] at heq
    by_cases h1 : (combinedL (normText d2.http.title).data
        (normText d1.http.metaDescription).data
        (normText d2.http.body_snippet).data).length < 50
    · rw [if_pos h1] at hsome; simp at hsome
    · rw [if_neg h1] at heq
      by_cases h2 : (combinedL (normText d2.http.title).data
          (normText d2.http.metaDescription).data
          (normText d2.http.body_snippet).data).length < 50
      · rw [if_pos h2] at heq; simp at heq
      · rw [if_neg h2] at heq
        have hdata : combinedL (normText d2.http.title).data
            (normText d1.http.metaDescription).data
            (normText d2.http.body_snippet).data
            = combinedL (normText d2.http.title).data
                (normText d2.http.metaDescription).data
                (normText d2.http.body_snippet).data :=
          congrArg String.data (Option.some.inj heq)
        exact combinedL_inj_meta _ _ _ _ (normText_stripped _) (normText_stripped _)
          (normText_stripped _) (fun hd => hne (congrArg String.mk hd)) hdata
  · intro d1 d2 ht hm hne hsome heq
    rw [buildContentFingerprint_eq d1, ht, hm] at hsome heq
    rw [buildContentFingerprint_eq d2] at heq
    by_cases h1 : (combinedL (normText d2.http.title).data
        (normText d2.http.metaDescription).data
        (normText d1.http.body_snippet).data).length < 50
    · rw [if_pos h1] at hsome; simp at hsome
    · rw [if_neg h1] at heq
      by_cases h2 : (combinedL (normText d2.http.title).data
          (normText d2.http.metaDescription).data
          (normText d2.http.body_snippet).data).length < 50
      · rw [if_pos h2] at heq; simp at heq
      · rw [if_neg h2] at heq
        have hdata : combinedL (normText d2.http.title).data
            (normText d2.http.metaDescription).data
            (normText d1.http.body_snippet).data
            = combinedL (normText d2.http.title).data
                (normText d2.http.metaDescription).data
                (normText d2.http.body_snippet).data :=
          congrArg String.data (Option.some.inj heq)
        exact combinedL_inj_snippet _ _ _ _ (normText_stripped _) (normText_stripped _)
          (fun hd => hne (congrArg String.mk hd)) hdata

/-- C6 counterexample: tinyDocA and tinyDocB differ in their normalized
titles, yet both fingerprints are None (combined content below 50), so the
mapped hash is identical — changing a field did not change the hash. -/
theorem claim_C6_counterexample :
    normText tinyDocA.http.title ≠ normText tinyDocB.http.title ∧
    normText tinyDocA.http.metaDescription = normText tinyDocB.http.metaDescription ∧
    normText tinyDocA.http.body_snippet = normText tinyDocB.http.body_snippet ∧
    (buildContentFingerprint tinyDocA).map computeHash
      = (buildContentFingerprint tinyDocB).map computeHash := by
  refine ⟨by decide, by decide, by decide, ?_⟩
  have hA : buildContentFingerprint tinyDocA = none := by decide
  have hB : buildContentFingerprint tinyDocB = none := by decide
  rw [hA, hB]

/-- Witness for claim_C6 at concrete records. -/
theorem claim_C6_witness :
    (buildContentFingerprint dupDocA).map computeHash
      = (buildContentFingerprint dupDocB).map computeHash ∧
    buildContentFingerprint dupDocA ≠ buildContentFingerprint longDocB :=
  ⟨claim_C6.1 dupDocA dupDocB rfl rfl rfl,
   claim_C6.2.1 dupDocA longDocB (by decide) rfl rfl (by decide)⟩

/-- C7 (amended): once the earlier rules have not matched, the file-based
engine yields Blocked exactly when the blocked flag is set, or the status is
in {403, 429} and a block keyword occurs in the single joined string
title + " " + snippet (a match may straddle the join); the database engine
yields Blocked exactly when the status is in {403, 429} or the flag is set,
with no keyword requirement at all. -/
theorem claim_C7 :
    (∀ (doc : FetchDoc) (e : Bool),
        (e = true → tldCheck doc = none) →
        dnsUnreachableCheck doc = none →
        httpUnreachableCheck doc = none →
        ((∃ conf reason, rulePreclass doc e = some ("Blocked", conf, reason)) ↔
          (doc.http.blocked = true ∨
            (statusMem doc.http.status blockedStatusCodes = true ∧
             anyPat blockPatterns
               (normText doc.http.title ++ " " ++ normText doc.http.body_snippet) = true)))) ∧
    (∀ (doc : FetchDoc) (e : Bool),
        (e = true → dbTldCheck doc = none) →
        dbDnsCheck doc = none →
        dbHttpUnreachableCheck doc = none →
        ((∃ conf reason, dbRulePreclass doc e = some ("Blocked", conf, reason)) ↔
          (blockedStatusCodes.contains ((doc.http.status).getD 0) = true ∨
           doc.http.blocked = true))) :=
  ⟨fun doc e htld hdns hhttp => enh_blocked_iff doc e htld hdns hhttp,
   fun doc e htld hdns hhttp => db_blocked_iff doc e htld hdns hhttp⟩

/-- C7 counterexample: boundary403Doc carries no block keyword in its title
nor in its snippet, yet the file-based engine marks it Blocked because
"access denied" straddles the join; and plain403Doc has no keyword anywhere
yet the database engine marks it Blocked on the 403 status alone. -/
theorem claim_C7_counterexample :
    rulePreclass boundary403Doc true
      = some ("Blocked", mkRat 95 100, "rule: http 403 + block fingerprint") ∧
    anyPat blockPatterns (normText boundary403Doc.http.title) = false ∧
    anyPat blockPatterns (normText boundary403Doc.http.body_snippet) = false ∧
    boundary403Doc.http.blocked = false ∧
    dbRulePreclass plain403Doc true = some ("Blocked", mkRat 98 100, "rule: blocked") ∧
    anyPat blockPatterns
      (normText plain403Doc.http.title ++ " " ++ normText plain403Doc.http.body_snippet)
      = false ∧
    plain403Doc.http.blocked = false := by
  decide

/-- Witness for claim_C7: on plain403Doc (status 403, no keyword, no flag)
the file-based engine does not yield Blocked. -/
theorem claim_C7_witness :
    ¬∃ conf reason, rulePreclass plain403Doc true = some ("Blocked", conf, reason) :=
  fun h => by
    have hc := (claim_C7.1 plain403Doc true (fun _ => by decide) (by decide) (by decide)).mp h
    revert hc
    decide

/-- C8 counterexample: in a batch where the middle domain raises, the
other two are fetched and inserted and all three count as completed, but
the failed domain is absent from the insert — it gets no recorded result. -/
theorem claim_C8_counterexample :
    wInsertedFqdns [.ok (fetchDomain wExtract "a.example.com" wDns [.ok wResp]),
                    .exn "b.example.com" "boom",
                    .ok (fetchDomain wExtract "c.example.com" wDns [.ok wResp])]
      = ["a.example.com", "c.example.com"] ∧
    wCompleted [.ok (fetchDomain wExtract "a.example.com" wDns [.ok wResp]),
                .exn "b.example.com" "boom",
                .ok (fetchDomain wExtract "c.example.com" wDns [.ok wResp])] = 3 := by
  exact ⟨rfl, rfl⟩

/-- Witness for claim_C8 on a concrete one-element batch. -/
theorem claim_C8_witness :
    (wBatchResults [DomOutcome.exn "b.example.com" "boom"]
        = wBatchResults [] ++ [none] ++ wBatchResults [] ∧
      wCompleted [DomOutcome.exn "b.example.com" "boom"] =
        List.length ([] : List DomOutcome) + 1 + List.length ([] : List DomOutcome)) ∧
    (wBatchResults [DomOutcome.exn "b.example.com" "boom"]).get
        ⟨0, by simp [wBatchResults, wProcessOne]⟩
      = wProcessOne (DomOutcome.exn "b.example.com" "boom") :=
  ⟨claim_C8.1 [] [] "b.example.com" "boom",
   claim_C8.2.1 [DomOutcome.exn "b.example.com" "boom"] 0 (by simp)⟩

/-- Witness for claim_C10: HTTPS times out, the HTTP fallback returns a
200 HTML page; the record keeps status 200 with error "timeout" and the
fetch status is success. -/
theorem claim_C10_witness :
    (httpFetch wExtract wDns [.timeout, .ok wResp]).status = 200 ∧
    (httpFetch wExtract wDns [.timeout, .ok wResp]).error = some "timeout" ∧
    (fetchDomain wExtract "a.example.com" wDns [.timeout, .ok wResp]).fetch_status
      = "success" := by
  have h := claim_C10 wExtract "a.example.com" wDns .timeout wResp "timeout"
    rfl (by decide) rfl
  exact ⟨h.1, h.2.2.2.2.1, (h.2.2.2.2.2.2 (by decide)).2 (by decide)⟩

end WebCat
